import Mathlib

/-! Blogsite: the AJAX form pipeline and the notification presenter.

A shallow embedding of `static/modern-scripts.js` (functions `initAjaxForms`,
`showNotification`, `likePost`, `getCookie`, `calculateReadingTime`,
`initDarkMode`, `initDropdowns`) and of `static/main.js` (the dropdown block,
`createDarkModeToggle`, `addReadingTime`).

* A parsed response body is a `Json` value; JavaScript's property reads,
  truthiness, `Object.keys` and string conversion are defined on it.
* The DOM subtree of a form is a tree of `Node`s; `querySelector`,
  `nextElementSibling`, `remove` and `insertBefore` act on that tree.
* The submit handler is run to completion for one outcome of the request and
  returns the form together with the ordered list of its outside effects.
* A notification is a small state machine driven by millisecond ticks and
  clicks on its close button.
* Cookie strings and post texts are lists of characters; `split`, `trim` and
  the regular expression `\s+` are defined on them.
* Dark mode and the dropdowns are small states with one function per listener.

Outside the model: the parsing of URLs, of HTML and of CSS selectors (a
redirect target is taken to be assignable, a message to be plain text, a field
name to need no escaping inside `[name="..."]`), and whatever a success
callback does to the page besides returning or throwing.
-/

namespace Blogsite

/-! ## JSON values and the JavaScript operations the handler applies to them -/

/-- A value produced by `response.json()`. An object is its list of own
properties in enumeration order. Numbers are modelled by integers. -/
inductive Json where
  | null
  | bool (b : Bool)
  | num (n : Int)
  | str (s : String)
  | arr (items : List Json)
  | obj (fields : List (String × Json))

/-- JavaScript `ToBoolean` of a JSON value. -/
def Json.truthy : Json → Bool
  | .null => false
  | .bool b => b
  | .num n => n != 0
  | .str s => s != ""
  | .arr _ => true
  | .obj _ => true

/-- Pairs each item of a list with its index, written as a property key. -/
def indexed {α : Type} : Nat → List α → List (String × α)
  | _, [] => []
  | i, x :: xs => (toString i, x) :: indexed (i + 1) xs

/-- Own enumerable properties of a value, in `Object.keys` order: the fields of
an object, the indices of an array, the character indices of a string (one
index per character), and nothing for the other primitives. -/
def Json.ownEntries : Json → List (String × Json)
  | .obj fields => fields
  | .arr items => indexed 0 items
  | .str s => indexed 0 (s.toList.map fun c => Json.str (String.singleton c))
  | _ => []

/-- `Object.keys(v)`. -/
def Json.keys (v : Json) : List String :=
  v.ownEntries.map Prod.fst

/-- Property read `v[k]` on a value that is not `null`: `none` stands for
`undefined`. The keys the handler reads are never inherited ones. -/
def Json.prop (v : Json) (k : String) : Option Json :=
  v.ownEntries.lookup k

/-- Truthiness of the result of a property read. -/
def truthy : Option Json → Bool
  | none => false
  | some v => v.truthy

/-- The expression `v || d`. -/
def orDefault (v : Option Json) (d : Json) : Json :=
  match v with
  | some x => if x.truthy then x else d
  | none => d

/-- The test `v !== false`. -/
def notFalse : Option Json → Bool
  | some (.bool false) => false
  | _ => true

mutual
/-- JavaScript `String(v)`. -/
def Json.toStr : Json → String
  | .null => "null"
  | .bool b => if b then "true" else "false"
  | .num n => toString n
  | .str s => s
  | .arr items => Json.joinItems items
  | .obj _ => "[object Object]"
/-- The text `Array.prototype.join` gives for the items of an array. -/
def Json.joinItems : List Json → String
  | [] => ""
  | [x] => Json.itemStr x
  | x :: y :: rest => Json.itemStr x ++ "," ++ Json.joinItems (y :: rest)
/-- One item of a joined array: `null` contributes the empty string. -/
def Json.itemStr : Json → String
  | .null => ""
  | .bool b => if b then "true" else "false"
  | .num n => toString n
  | .str s => s
  | .arr items => Json.joinItems items
  | .obj _ => "[object Object]"
end

/-- The text a node gets from `node.textContent = v`: the attribute is a
nullable string, so `null` and `undefined` both give the empty string. -/
def textOf : Option Json → String
  | none => ""
  | some .null => ""
  | some v => v.toStr

/-! ## The DOM subtree of a form -/

/-- Attributes and properties of an element that the handler reads or writes. -/
structure Attrs where
  name : Option String
  classes : List String
  value : String
  defaultValue : String
deriving DecidableEq, Repr

/-- A DOM node below the form: a text node or an element with its children. -/
inductive Node where
  | text (s : String)
  | elem (a : Attrs) (children : List Node)
deriving Repr

/-- `classList.add(c)` on a list of class names. -/
def classListAdd (c : String) (cls : List String) : List String :=
  if cls.contains c then cls else cls ++ [c]

/-- `classList.remove(c)` on a list of class names. -/
def classListRemove (c : String) (cls : List String) : List String :=
  cls.filter fun x => x != c

/-- Whether the node matches the selector `[name="f"]`. -/
def Node.hasName (f : String) : Node → Bool
  | .text _ => false
  | .elem a _ => a.name == some f

/-- Whether the node is an element whose class list contains `c`. -/
def Node.hasClass (c : String) : Node → Bool
  | .text _ => false
  | .elem a _ => a.classes.contains c

/-- `node.classList.add(c)`. -/
def Node.addClass (c : String) : Node → Node
  | .text s => .text s
  | .elem a ch => .elem { a with classes := classListAdd c a.classes } ch

mutual
/-- `node.textContent`: the text of all text nodes below, in document order. -/
def Node.textContent : Node → String
  | .text s => s
  | .elem _ ch => textContentList ch
/-- Concatenated text of a list of sibling nodes. -/
def textContentList : List Node → String
  | [] => ""
  | x :: rest => x.textContent ++ textContentList rest
end

/-- The element built at lines 455-457: a `div` of class `invalid-feedback`
whose text is the message. -/
def errorDiv (msg : String) : Node :=
  .elem ⟨none, ["invalid-feedback"], "", ""⟩ (if msg = "" then [] else [.text msg])

/-- Lines 460-463 on the siblings that follow the input: the next element
sibling (text nodes are skipped) is removed when it has class
`invalid-feedback`. -/
def removeNextError : List Node → List Node
  | [] => []
  | .text s :: rest => .text s :: removeNextError rest
  | .elem a ch :: rest =>
      if a.classes.contains "invalid-feedback" then rest else .elem a ch :: rest

mutual
/-- Lines 450-466 below one node: `none` when no descendant matches. -/
def markNode (f msg : String) : Node → Option Node
  | .text _ => none
  | .elem a ch => (markList f msg ch).map fun r => .elem a r
/-- Lines 450-466 on a list of siblings: the first node in document order with
`name` equal to `f` gets class `is-invalid`, an existing error element after
it is removed and the new one is inserted before its next sibling. `none`
when `querySelector` finds nothing. -/
def markList (f msg : String) : List Node → Option (List Node)
  | [] => none
  | x :: rest =>
      if x.hasName f then
        some (x.addClass "is-invalid" :: errorDiv msg :: removeNextError rest)
      else
        match markNode f msg x with
        | some x2 => some (x2 :: rest)
        | none => (markList f msg rest).map fun r => x :: r
end

/-- One iteration of the `forEach` at line 449. -/
def markField (errors : Json) (nodes : List Node) (field : String) : List Node :=
  (markList field (textOf (errors.prop field)) nodes).getD nodes

/-- Lines 449-467: every key of the error mapping is processed in order. -/
def displayFieldErrors (errors : Json) (nodes : List Node) : List Node :=
  errors.keys.foldl (markField errors) nodes

mutual
/-- The effect of `form.reset()` on one node: a control returns to its default
value. -/
def resetNode : Node → Node
  | .text s => .text s
  | .elem a ch => .elem { a with value := a.defaultValue } (resetList ch)
/-- The effect of `form.reset()` on a list of siblings. -/
def resetList : List Node → List Node
  | [] => []
  | x :: rest => resetNode x :: resetList rest
end

/-! ## Looking at the result: the matched element and what follows it -/

mutual
/-- The search `querySelector('[name="f"]')` below one node. -/
def findNode (f : String) : Node → Option (Node × List Node)
  | .text _ => none
  | .elem _ ch => findList f ch
/-- The first node in document order with `name` equal to `f`, together with
the siblings that follow it; `none` when there is no such node. -/
def findList (f : String) : List Node → Option (Node × List Node)
  | [] => none
  | x :: rest =>
      if x.hasName f then some (x, rest)
      else
        match findNode f x with
        | some r => some r
        | none => findList f rest
end

/-- Number of error elements that follow directly, text nodes between them
not counted: the length of the run of elements of class `invalid-feedback` at
the head of a list of siblings. -/
def leadingErrors : List Node → Nat
  | [] => 0
  | .text _ :: rest => leadingErrors rest
  | .elem a _ :: rest =>
      if a.classes.contains "invalid-feedback" then leadingErrors rest + 1 else 0

/-- Number of error elements directly after the first node named `f`. -/
def errorsAfter (f : String) (nodes : List Node) : Nat :=
  match findList f nodes with
  | some r => leadingErrors r.2
  | none => 0

/-- What the run of text nodes and error elements at the head of a list of
siblings shows: `none` for a text node, the text of an error element. -/
def errorView : List Node → List (Option String)
  | [] => []
  | .text _ :: rest => none :: errorView rest
  | .elem a ch :: rest =>
      if a.classes.contains "invalid-feedback" then
        some (Node.elem a ch).textContent :: errorView rest
      else []

/-- The class list of a node; a text node has none. -/
def Node.classes : Node → List String
  | .text _ => []
  | .elem a _ => a.classes

/-- The class list of the first node named `f` and the view of the error
elements after it. -/
def fieldView (f : String) (nodes : List Node) : Option (List String × List (Option String)) :=
  (findList f nodes).map fun r => (r.1.classes, errorView r.2)

mutual
/-- Whether some element at or below the node has a `name` attribute. -/
def namedInNode : Node → Bool
  | .text _ => false
  | .elem a ch => a.name.isSome || namedInList ch
/-- Whether some element in or below the siblings has a `name` attribute. -/
def namedInList : List Node → Bool
  | [] => false
  | x :: rest => namedInNode x || namedInList rest
end

mutual
/-- No element of class `invalid-feedback` at or below the node has a `name`
attribute or contains an element that has one. -/
def errorsUnnamedNode : Node → Bool
  | .text _ => true
  | .elem a ch =>
      if a.classes.contains "invalid-feedback" then !(a.name.isSome || namedInList ch)
      else errorsUnnamedList ch
/-- The same for a list of siblings. -/
def errorsUnnamedList : List Node → Bool
  | [] => true
  | x :: rest => errorsUnnamedNode x && errorsUnnamedList rest
end

mutual
/-- Every element named `f` at or below the node is marked: see
`everyNamedMarked`. -/
def everyNamedMarkedIn (f msg : String) : Node → Bool
  | .text _ => true
  | .elem _ ch => everyNamedMarked f msg ch
/-- Every element named `f` in or below the siblings carries `is-invalid` and
is directly followed by an element of class `invalid-feedback` with text
`msg`. -/
def everyNamedMarked (f msg : String) : List Node → Bool
  | [] => true
  | x :: rest =>
      (!x.hasName f ||
        (x.hasClass "is-invalid" &&
          match rest with
          | next :: _ => next.hasClass "invalid-feedback" && next.textContent == msg
          | [] => false)) &&
      everyNamedMarkedIn f msg x && everyNamedMarked f msg rest
end

mutual
/-- The named controls at or below a node with their current values, in
document order. -/
def fieldValuesIn : Node → List (String × String)
  | .text _ => []
  | .elem a ch =>
      (match a.name with
       | some n => [(n, a.value)]
       | none => []) ++ fieldValues ch
/-- The named controls in or below a list of siblings with their current
values, in document order. -/
def fieldValues : List Node → List (String × String)
  | [] => []
  | x :: rest => fieldValuesIn x ++ fieldValues rest
end

/-! ## The form and the submit handler -/

/-- The element found by `this.querySelector('[type="submit"]')`. -/
structure SubmitControl where
  disabled : Bool
  innerHTML : String
  originalText : Option String
deriving DecidableEq, Repr

/-- A form with `data-ajax="true"`: its attributes, its class list, its submit
control when it has one, and its child nodes. -/
structure Form where
  action : Option String
  method : Option String
  successCallback : Option String
  classes : List String
  submitBtn : Option SubmitControl
  children : List Node

/-- What the handler does to the world outside the form, in program order. -/
inductive Effect where
  | fetch (url : Option String) (method : String)
  | notify (message : Json) (type : String)
  | reset
  | callback (fn : String) (data : Json)
  | navigate (target : Json)
  | reload
  | logError

/-- How the request of one submission ends. -/
inductive Outcome where
  | json (data : Json)
  | malformed
  | rejected

/-- The page around the form: which global names are functions, and on which
responses such a function throws. A callback leaves the form alone. -/
structure Env where
  isFunction : String → Bool
  throwsOn : String → Json → Bool

/-- The expression `el.getAttribute(a) || d`. -/
def attrOr (a : Option String) (d : String) : String :=
  match a with
  | some s => if s = "" then d else s
  | none => d

/-- The markup written into the submit control at line 399. -/
def busyLabel : String :=
  "<i class=\"fas fa-spinner fa-spin\"></i> Processing..."

/-- Lines 394-400: enter the loading state. -/
def showLoading (form : Form) : Form :=
  { form with
    classes := classListAdd "loading" form.classes
    submitBtn := form.submitBtn.map fun b =>
      { b with disabled := true, innerHTML := busyLabel } }

/-- Lines 412-417 and 474-479: leave the loading state. -/
def removeLoading (form : Form) : Form :=
  { form with
    classes := classListRemove "loading" form.classes
    submitBtn := form.submitBtn.map fun b =>
      { b with disabled := false, innerHTML := attrOr b.originalText "Submit" } }

/-- The condition at line 430: the function that is called, when the attribute
`data-success-callback` names a global function. -/
def calledCallback (env : Env) (form : Form) : Option String :=
  match form.successCallback with
  | some fn => if fn != "" && env.isFunction fn then some fn else none
  | none => none

/-- Line 431: the call of the success callback. -/
def callbackEffects (env : Env) (form : Form) (data : Json) : List Effect :=
  match calledCallback env form with
  | some fn => [Effect.callback fn data]
  | none => []

/-- Whether the call at line 431 throws. -/
def callbackThrows (env : Env) (form : Form) (data : Json) : Bool :=
  match calledCallback env form with
  | some fn => env.throwsOn fn data
  | none => false

/-- Lines 424-427 on the children of the form: `this.reset()` runs unless
`reset_form` is `false`. -/
def successChildren (data : Json) (nodes : List Node) : List Node :=
  if notFalse (data.prop "reset_form") then resetList nodes else nodes

/-- Lines 434-437: `window.location.href` is assigned when `data.redirect` is
truthy. -/
def redirectEffects (data : Json) : List Effect :=
  match data.prop "redirect" with
  | some target => if target.truthy then [Effect.navigate target] else []
  | none => []

/-- Lines 421-432, the outside effects of the success branch up to the call of
the callback: the notification, the reset and the call. -/
def successPrefix (env : Env) (form : Form) (data : Json) : List Effect :=
  let shown := [Effect.notify (orDefault (data.prop "message") (.str "Success!")) "success"]
  let resets := if notFalse (data.prop "reset_form") then [Effect.reset] else []
  let calls := callbackEffects env form data
  shown ++ resets ++ calls

/-- Lines 434-442, the outside effects of the success branch after the
callback has returned: the redirect and the reload. -/
def successSuffix (data : Json) : List Effect :=
  let redirect := redirectEffects data
  let refresh := if truthy (data.prop "refresh") then [Effect.reload] else []
  redirect ++ refresh

/-- Lines 447-468 on the children of the form: the field errors are displayed
when `data.errors` is truthy. -/
def failureChildren (data : Json) (nodes : List Node) : List Node :=
  match data.prop "errors" with
  | some errors => if errors.truthy then displayFieldErrors errors nodes else nodes
  | none => nodes

/-- Line 445, the outside effect of the failure branch. -/
def failureEffects (data : Json) : List Effect :=
  [Effect.notify (orDefault (data.prop "message") (.str "An error occurred.")) "error"]

/-- Lines 411-470, the function given to `then`. The result is `error` when
it throws: reading `data.success` from `null` is a `TypeError`, and the
success callback may throw; what was done before the throw stays done. -/
def onResponse (env : Env) (form : Form) (data : Json) :
    Except (Form × List Effect) (Form × List Effect) :=
  let form1 := removeLoading form
  match data with
  | .null => .error (form1, [])
  | _ =>
    if truthy (data.prop "success") then
      let form2 := { form1 with children := successChildren data form1.children }
      if callbackThrows env form data then .error (form2, successPrefix env form data)
      else .ok (form2, successPrefix env form data ++ successSuffix data)
    else
      .ok ({ form1 with children := failureChildren data form1.children },
           failureEffects data)

/-- Lines 471-483, the function given to `catch`. -/
def onCatch (form : Form) : Form × List Effect :=
  (removeLoading form,
   [Effect.logError,
    Effect.notify (.str "An unexpected error occurred. Please try again.") "error"])

/-- The submit handler installed by `initAjaxForms` (lines 386-484), run until
the promise chain has settled for the given outcome of the request. -/
def initAjaxForms (env : Env) (form : Form) (outcome : Outcome) : Form × List Effect :=
  let form0 := showLoading form
  let request := Effect.fetch form.action (attrOr form.method "POST")
  match outcome with
  | .json data =>
      match onResponse env form0 data with
      | .ok r => (r.1, request :: r.2)
      | .error r => ((onCatch r.1).1, request :: (r.2 ++ (onCatch r.1).2))
  | .malformed => ((onCatch form0).1, request :: (onCatch form0).2)
  | .rejected => ((onCatch form0).1, request :: (onCatch form0).2)

/-- The notifications among a list of effects, in order. -/
def notifications : List Effect → List (Json × String)
  | [] => []
  | .notify m t :: rest => (m, t) :: notifications rest
  | _ :: rest => notifications rest

/-- Number of calls of `form.reset()` among a list of effects. -/
def resets : List Effect → Nat
  | [] => 0
  | .reset :: rest => resets rest + 1
  | _ :: rest => resets rest

/-- A page without global callback functions. -/
def plainPage : Env :=
  ⟨fun _ => false, fun _ _ => false⟩

/-- An `input` element with a name and a current value. -/
def inputNamed (name value : String) : Node :=
  .elem ⟨some name, [], value, ""⟩ []

/-- A form with one text input and a button labelled "Save" that has no
`data-original-text` attribute. -/
def saveForm : Form :=
  { action := some "/save/"
    method := some "post"
    successCallback := none
    classes := []
    submitBtn := some ⟨false, "Save", none⟩
    children := [inputNamed "title" "Hello"] }

/-- Children of a form in which the input `email` itself carries the class
`invalid-feedback` and directly follows the input `user`. -/
def inputStyledAsError : List Node :=
  [inputNamed "user" "", .elem ⟨some "email", ["invalid-feedback"], "", ""⟩ []]

/-- Children of a form whose markup already has two error elements after the
input `email`. -/
def twoErrorsInMarkup : List Node :=
  [inputNamed "email" "", errorDiv "old one", errorDiv "old two"]

/-! ## The notification presenter -/

/-- Lines 497-500: the icon chosen for a severity. -/
def iconFor (type : String) : String :=
  let icon := "info-circle"
  let icon := if type = "success" then "check-circle" else icon
  let icon := if type = "error" then "exclamation-circle" else icon
  let icon := if type = "warning" then "exclamation-triangle" else icon
  icon

/-- The three callbacks `showNotification` hands to `setTimeout`. -/
inductive TimerFn where
  | show
  | autoClose
  | remove
deriving DecidableEq, Repr

/-- A notification element and the timers that refer to it. `now` counts the
milliseconds since creation; `dismissals` and `removals` count how often a
dismissal was triggered and how often `removeChild` was called. -/
structure Notification where
  className : String
  icon : String
  message : Json
  shown : Bool
  attached : Bool
  now : Nat
  timers : List (Nat × TimerFn)
  dismissals : Nat
  removals : Nat

/-- Lines 491-555: the element as appended to the container, with the two
timers registered at creation. An omitted severity is `none`. -/
def showNotification (message : Json) (type : Option String) : Notification :=
  let type := type.getD "info"
  { className := "notification notification-" ++ type
    icon := iconFor type
    message := message
    shown := false
    attached := true
    now := 0
    timers := [(10, TimerFn.show), (5000, TimerFn.autoClose)]
    dismissals := 0
    removals := 0 }

/-- Lines 535-539 and 548-552: the removal callback. -/
def removeAfterAnimation (n : Notification) : Notification :=
  if n.attached then { n with attached := false, removals := n.removals + 1 } else n

/-- Lines 531-540: the click listener of the close button. -/
def closeClick (n : Notification) : Notification :=
  { n with
    shown := false
    timers := n.timers ++ [(n.now + 300, TimerFn.remove)]
    dismissals := n.dismissals + 1 }

/-- Runs one timer callback. -/
def fire (n : Notification) : TimerFn → Notification
  | .show => { n with shown := true }
  | .autoClose =>
      if n.shown then
        { n with
          shown := false
          timers := n.timers ++ [(n.now + 300, TimerFn.remove)]
          dismissals := n.dismissals + 1 }
      else n
  | .remove => removeAfterAnimation n

/-- One millisecond passes; the timers that are due run in the order in which
they were registered. -/
def tick (n : Notification) : Notification :=
  let due := n.timers.filter fun t => t.1 ≤ n.now + 1
  let waiting := n.timers.filter fun t => ¬ (t.1 ≤ n.now + 1)
  due.foldl (fun s t => fire s t.2) { n with now := n.now + 1, timers := waiting }

/-- What can happen to a notification. -/
inductive Event where
  | tick
  | click
deriving DecidableEq, Repr

/-- Applies one event. -/
def step (n : Notification) : Event → Notification
  | .tick => tick n
  | .click => closeClick n

/-- Applies a sequence of events in order. -/
def run (events : List Event) (n : Notification) : Notification :=
  events.foldl step n

/-- The notification is on screen: in the container and carrying `show`. -/
def Notification.visible (n : Notification) : Bool :=
  n.attached && n.shown

/-- JavaScript's white space and line terminators: the characters that `trim`
strips and that `\s` matches. -/
def isJsSpace (c : Char) : Bool :=
  c.toNat ∈ [0x09, 0x0A, 0x0B, 0x0C, 0x0D, 0x20, 0xA0, 0x1680, 0x2028, 0x2029, 0x202F, 0x205F,
    0x3000, 0xFEFF] || (0x2000 ≤ c.toNat && c.toNat ≤ 0x200A)

/-- `s.trimStart()`. -/
def dropSpaces : List Char → List Char
  | [] => []
  | c :: cs => if isJsSpace c then dropSpaces cs else c :: cs

/-- `s.trim()`. -/
def trimJs (s : List Char) : List Char :=
  (dropSpaces (dropSpaces s).reverse).reverse

/-- `s.split(sep)` for a separator of one character. -/
def splitOn (sep : Char) : List Char → List (List Char)
  | [] => [[]]
  | c :: cs =>
      if c = sep then [] :: splitOn sep cs
      else
        match splitOn sep cs with
        | [] => [[c]]
        | piece :: pieces => (c :: piece) :: pieces

/-! ## getCookie -/

/-- Lines 617-623 of `getCookie`: the loop over the split cookie string. The
first cookie that starts with `name=` is decoded; `decode` stands for
`decodeURIComponent`, which gives `none` where that throws a `URIError`. -/
def cookieLoop (decode : String → Option String) (name : List Char) :
    List (List Char) → Except Unit (Option String)
  | [] => .ok none
  | raw :: rest =>
      let cookie := trimJs raw
      if cookie.take (name.length + 1) = name ++ ['='] then
        match decode (String.mk (cookie.drop (name.length + 1))) with
        | some value => .ok (some value)
        | none => .error ()
      else cookieLoop decode name rest

/-- Lines 613-626: `getCookie(name)` for a given `document.cookie`. The result
is `error` when `decodeURIComponent` throws, `ok none` for `null`. -/
def getCookie (decode : String → Option String) (documentCookie : String) (name : String) :
    Except Unit (Option String) :=
  if documentCookie ≠ "" then
    cookieLoop decode name.toList (splitOn ';' documentCookie.toList)
  else .ok none

/-- One `name=value` entry of a cookie string with the white space around
it. -/
structure CookieEntry where
  before : List Char
  name : List Char
  value : List Char
  after : List Char

/-- The text of an entry. -/
def CookieEntry.text (e : CookieEntry) : List Char :=
  e.before ++ (e.name ++ '=' :: e.value) ++ e.after

/-- An entry is well formed when what surrounds it is white space, the name
holds neither `;` nor `=`, the value holds no `;`, and the pair `name=value`
neither starts nor ends with white space. -/
def CookieEntry.wellFormed (e : CookieEntry) : Bool :=
  e.before.all isJsSpace && e.after.all isJsSpace &&
  !e.name.contains ';' && !e.name.contains '=' && !e.value.contains ';' &&
  e.name.head?.all (fun c => !isJsSpace c) && e.value.getLast?.all (fun c => !isJsSpace c)

/-- The cookie string made of the entries, separated by `;`. -/
def cookieString : List CookieEntry → List Char
  | [] => []
  | [e] => e.text
  | e :: rest => e.text ++ ';' :: cookieString rest

/-! ## likePost -/

/-- The like button of a post: its class list, the text of its `.like-count`
element when it has one, and the class list of its first `i` element when it
has one. -/
structure LikeButton where
  classes : List String
  count : Option String
  icon : Option (List String)

/-- What `likePost` does outside the button, in program order. -/
inductive LikeEffect where
  | request (url : String) (csrfToken : Option String)
  | notify (message : Json) (type : String)
  | logError

/-- Lines 580-589 on the icon: `classList.remove` of one class, then
`classList.add` of the other; `none` when `querySelector('i')` finds nothing and the
property read throws. -/
def setIcon (removed added : String) (btn : LikeButton) : Option LikeButton :=
  match btn.icon with
  | some cls => some { btn with icon := some (classListAdd added (classListRemove removed cls)) }
  | none => none

/-- Lines 572-594, the function given to `then`. The result is `error` when
it throws, with the button as it was left at that point. -/
def likeResponse (btn : LikeButton) (data : Json) :
    Except (LikeButton × List LikeEffect) (LikeButton × List LikeEffect) :=
  match data with
  | .null => .error (btn, [])
  | _ =>
    if truthy (data.prop "success") then
      let counted := { btn with count := btn.count.map fun _ => textOf (data.prop "likes_count") }
      if truthy (data.prop "liked") then
        let marked := { counted with classes := classListAdd "liked" counted.classes }
        match setIcon "far" "fas" marked with
        | some done => .ok (done, [])
        | none => .error (marked, [])
      else
        let unmarked := { counted with classes := classListRemove "liked" counted.classes }
        match setIcon "fas" "far" unmarked with
        | some done => .ok (done, [])
        | none => .error (unmarked, [])
    else
      .ok (btn, [LikeEffect.notify (orDefault (data.prop "message") (.str "An error occurred."))
        "error"])

/-- Lines 560-599: `likePost(postId)` run until the promise chain has settled.
`likeBtn` is what `querySelector` finds; the result is `error` when
`getCookie` throws before the request is sent. -/
def likePost (decode : String → Option String) (documentCookie : String)
    (likeBtn : Option LikeButton) (postId : String) (outcome : Outcome) :
    Except Unit (Option LikeButton × List LikeEffect) :=
  match likeBtn with
  | none => .ok (none, [])
  | some btn =>
    match getCookie decode documentCookie "csrftoken" with
    | .error e => .error e
    | .ok token =>
      let request := LikeEffect.request ("/like-post/" ++ postId ++ "/") token
      let failed := [LikeEffect.logError,
        LikeEffect.notify (.str "An unexpected error occurred. Please try again.") "error"]
      match outcome with
      | .json data =>
          match likeResponse btn data with
          | .ok r => .ok (some r.1, request :: r.2)
          | .error r => .ok (some r.1, request :: (r.2 ++ failed))
      | .malformed => .ok (some btn, request :: failed)
      | .rejected => .ok (some btn, request :: failed)

/-- The string that `fetch` makes of its first argument: `null` becomes the
relative reference "null". -/
def fetchInput : Option String → String
  | some url => url
  | none => "null"

/-- A form without an `action` attribute. -/
def commentForm : Form :=
  { action := none
    method := some "post"
    successCallback := none
    classes := []
    submitBtn := none
    children := [inputNamed "body" "Nice post"] }

/-- A cookie string with two decoys around the token: `xcsrftoken=1;
csrftoken2=x; csrftoken=a%20b ; theme=dark`. -/
def sampleCookies : List CookieEntry :=
  [⟨[], "xcsrftoken".toList, "1".toList, []⟩,
   ⟨[' '], "csrftoken2".toList, "x".toList, []⟩,
   ⟨[' '], "csrftoken".toList, "a%20b".toList, [' ']⟩,
   ⟨[' '], "theme".toList, "dark".toList, []⟩]

/-- A stand-in for `decodeURIComponent` that knows one escape. -/
def sampleDecode (s : String) : Option String :=
  if s = "a%20b" then some "a b" else some s

/-! ## Dark mode -/

/-- The expression `!!s` for a value read from local storage: `null` and the
empty string are falsy. -/
def storedTruthy : Option String → Bool
  | some s => s != ""
  | none => false

/-- What `initDarkMode` of `modern-scripts.js` works on: whether `body` has
the class `dark-mode`, the value stored under `theme`, and the checkbox
`#dark-mode-toggle` with its `checked` state when the page has one. -/
structure ModernPage where
  bodyDark : Bool
  theme : Option String
  toggle : Option Bool

/-- Lines 56-76 of `modern-scripts.js`: the body of `initDarkMode` up to the
registration of the listeners. -/
def initDarkMode (systemDark : Bool) (p : ModernPage) : ModernPage :=
  if storedTruthy p.theme then
    { p with
      bodyDark := p.theme == some "dark"
      toggle := p.toggle.map fun _ => p.theme == some "dark" }
  else
    { p with
      bodyDark := systemDark
      toggle := p.toggle.map fun _ => systemDark }

/-- Lines 80-88: the `change` listener of the checkbox. -/
def onToggleChange (p : ModernPage) : ModernPage :=
  match p.toggle with
  | some true => { p with bodyDark := true, theme := some "dark" }
  | some false => { p with bodyDark := false, theme := some "light" }
  | none => p

/-- The user flips the checkbox, which fires `change`. -/
def userToggle (p : ModernPage) : ModernPage :=
  onToggleChange { p with toggle := p.toggle.map fun c => !c }

/-- Lines 92-100: the listener for a change of the system preference. -/
def onSystemChange (nowDark : Bool) (p : ModernPage) : ModernPage :=
  if storedTruthy p.theme then p
  else { p with bodyDark := nowDark, toggle := p.toggle.map fun _ => nowDark }

/-- What `createDarkModeToggle` of `main.js` works on: the class on `body`,
the stored theme, whether `footer .footer-content` exists, and the label of
the button `#darkModeToggle` once it has been created. -/
structure ClassicPage where
  bodyDark : Bool
  theme : Option String
  footer : Bool
  button : Option String

/-- The label of the button in light mode. -/
def moonLabel : String :=
  "<i class=\"fas fa-moon\"></i> Dark Mode"

/-- The label of the button in dark mode. -/
def sunLabel : String :=
  "<i class=\"fas fa-sun\"></i> Light Mode"

/-- Lines 102-124 of `main.js`: the body of `createDarkModeToggle` up to the
registration of the click listener. -/
def createDarkModeToggle (systemDark : Bool) (p : ClassicPage) : ClassicPage :=
  if p.footer then
    if p.theme == some "dark" || (!storedTruthy p.theme && systemDark) then
      { p with bodyDark := true, button := some sunLabel }
    else { p with button := some moonLabel }
  else p

/-- Lines 125-135 of `main.js`: the click listener of the button. -/
def clickDarkModeToggle (p : ClassicPage) : ClassicPage :=
  match p.button with
  | some _ =>
      if !p.bodyDark then { p with bodyDark := true, theme := some "dark", button := some sunLabel }
      else { p with bodyDark := false, theme := some "light", button := some moonLabel }
  | none => p

/-! ## Reading time -/

/-- The pieces of `text.split(/\s+/)`; the flag says that the previous
character was white space, so that a run of white space separates once. -/
def splitRuns : Bool → List Char → List (List Char)
  | _, [] => [[]]
  | afterSpace, c :: cs =>
      if isJsSpace c then
        if afterSpace then splitRuns true cs else [] :: splitRuns true cs
      else
        match splitRuns false cs with
        | [] => [[c]]
        | piece :: pieces => (c :: piece) :: pieces

/-- `text.split(/\s+/)`. -/
def splitSpaces (text : String) : List String :=
  (splitRuns false text.toList).map String.mk

/-- Lines 636-637 of `modern-scripts.js` and 172-173 of `main.js`:
`Math.ceil(text.split(/\s+/).length / 200)`. -/
def readingTime (text : String) : Nat :=
  ((splitSpaces text).length + 199) / 200

/-- Lines 631-643: `calculateReadingTime`, given the text of `.post-content`
and of `.reading-time` where these elements exist; the result is the text of
`.reading-time` afterwards. -/
def calculateReadingTime (postContent : Option String) (readingTimeElement : Option String) :
    Option String :=
  match postContent with
  | none => readingTimeElement
  | some text => readingTimeElement.map fun _ => toString (readingTime text) ++ " min read"

/-- Lines 166-179 of `main.js`: `addReadingTime`, given the text of
`.card-content` and the children of `.card-meta` where these elements exist;
the result is the children of `.card-meta` afterwards, a `span` being written
as its `innerHTML`. -/
def addReadingTime (postContent : Option String) (postMeta : Option (List String)) :
    Option (List String) :=
  match postContent, postMeta with
  | some text, some children =>
      some (children ++
        ["<i class=\"far fa-clock\"></i> " ++ toString (readingTime text) ++ " min read"])
  | _, _ => postMeta

/-- Number of words of a text: maximal runs of characters that are not white
space. The flag says that the previous character belonged to a word. -/
def countWords : Bool → List Char → Nat
  | _, [] => 0
  | inWord, c :: cs =>
      if isJsSpace c then countWords false cs
      else (if inWord then 0 else 1) + countWords true cs

/-- Number of words of a text. -/
def wordCount (text : String) : Nat :=
  countWords false text.toList

/-- Whether the text is empty or starts with white space. -/
def startsBlank (text : String) : Bool :=
  match text.toList.head? with
  | some c => isJsSpace c
  | none => true

/-- Whether the last character is white space; the flag answers for the part
read so far. -/
def lastIsSpace : Bool → List Char → Bool
  | soFar, [] => soFar
  | _, c :: cs => lastIsSpace (isJsSpace c) cs

/-- Whether the text ends with white space. -/
def endsBlank (text : String) : Bool :=
  lastIsSpace false text.toList

/-- A text of two hundred one-letter words, each followed by a space. -/
def twoHundredWords : String :=
  String.mk (List.replicate 200 ['w', ' ']).flatten

/-- A page of `modern-scripts.js` in light mode with the checkbox unchecked
and nothing stored. -/
def lightModern : ModernPage :=
  ⟨false, none, some false⟩

/-- A page of `main.js` in light mode after `createDarkModeToggle` has made
the button, nothing stored. -/
def lightClassic : ClassicPage :=
  ⟨false, none, true, some moonLabel⟩

/-! ## Dropdowns -/

/-- A toggle with the menu that directly follows it: whether the menu has the
class `show`, and the toggle's `aria-expanded` attribute. -/
structure Dropdown where
  shown : Bool
  ariaExpanded : Option String
deriving DecidableEq, Repr

/-- A click on the toggle of the dropdown with the given index (in document
order), or a click outside every dropdown. -/
inductive Click where
  | toggle (i : Nat)
  | outside
deriving DecidableEq, Repr

/-- Lines 147-152 and 163-166 of `modern-scripts.js` on one dropdown: an open
menu loses `show` and its toggle gets `aria-expanded="false"`. -/
def closeModern (d : Dropdown) : Dropdown :=
  if d.shown then { shown := false, ariaExpanded := some "false" } else d

/-- Lines 140-157 of `modern-scripts.js`: the click listener of the toggle
with index `i`; every other open menu is closed and the menu of the toggle is
toggled. -/
def modernToggleAt : Nat → List Dropdown → List Dropdown
  | _, [] => []
  | 0, d :: rest =>
      { shown := !d.shown, ariaExpanded := some (toString (!d.shown)) } :: rest.map closeModern
  | i + 1, d :: rest => closeModern d :: modernToggleAt i rest

/-- Lines 136-169 of `modern-scripts.js`: the listeners that `initDropdowns`
installs, run for one click; a toggle click does not reach the document
listener (`stopPropagation`). -/
def initDropdowns (ds : List Dropdown) : Click → List Dropdown
  | .toggle i => if i < ds.length then modernToggleAt i ds else ds
  | .outside => ds.map closeModern

/-- Lines 57-64 and 70-77 of `main.js` on one dropdown: an open menu loses
`show`. -/
def closeClassic (d : Dropdown) : Dropdown :=
  if d.shown then { d with shown := false } else d

/-- Lines 49-65 of `main.js`: the click listener of the toggle with index `i`;
its menu is toggled and every other open menu is closed. -/
def classicToggleAt : Nat → List Dropdown → List Dropdown
  | _, [] => []
  | 0, d :: rest => { d with shown := !d.shown } :: rest.map closeClassic
  | i + 1, d :: rest => closeClassic d :: classicToggleAt i rest

/-- Lines 46-78 of `main.js`: the listeners installed for `dropdownToggles`
and on the document, run for one click. -/
def classicClick (ds : List Dropdown) : Click → List Dropdown
  | .toggle i => if i < ds.length then classicToggleAt i ds else ds
  | .outside => ds.map closeClassic

/-- Whether the menu with index `j` is open. -/
def isOpen : List Dropdown → Nat → Bool
  | [], _ => false
  | d :: _, 0 => d.shown
  | _ :: rest, j + 1 => isOpen rest j

/-- Number of open menus. -/
def openCount : List Dropdown → Nat
  | [] => 0
  | d :: rest => (if d.shown then 1 else 0) + openCount rest

/-- Three dropdowns of which the second is open. -/
def threeDropdowns : List Dropdown :=
  [⟨false, none⟩, ⟨true, some "true"⟩, ⟨false, none⟩]

/-! ## Field errors, one field at a time -/

/-- One iteration of the loop at line 449 on a node, for a field and its
message: as `markNode`, and no change when nothing below the node matches. -/
def applyMarkIn (f msg : String) (x : Node) : Node :=
  (markNode f msg x).getD x

/-- One iteration of the loop at line 449 on a list of siblings, for a field
and its message: as `markList`, and no change when `querySelector` finds
nothing. -/
def applyMark (f msg : String) (l : List Node) : List Node :=
  (markList f msg l).getD l

mutual
/-- The search for the first node named `f` below one node, giving the node
directly before it among its siblings. -/
def previousSiblingIn (f : String) : Node → Option (Option Node)
  | .text _ => none
  | .elem _ ch => previousSiblingOf f none ch
/-- The node directly before the first node named `f` (its `previousSibling`):
`none` when no node has that name, `some none` when it is a first child. The
second argument is the node before the list, if any. -/
def previousSiblingOf (f : String) : Option Node → List Node → Option (Option Node)
  | _, [] => none
  | before, x :: rest =>
      if x.hasName f then some before
      else
        match previousSiblingIn f x with
        | some r => some r
        | none => previousSiblingOf f (some x) rest
end

theorem removeLoading_classes (form : Form) :
    "loading" ∉ (removeLoading form).classes := by
  simp [removeLoading, classListRemove]

theorem removeLoading_showLoading_btn (form : Form) (btn : SubmitControl)
    (h : form.submitBtn = some btn) :
    (removeLoading (showLoading form)).submitBtn =
      some { disabled := false, innerHTML := attrOr btn.originalText "Submit",
             originalText := btn.originalText } := by
  simp [removeLoading, showLoading, h]


/-! ## The submit handler, outcome by outcome -/

theorem initAjaxForms_rejected (env : Env) (form : Form) :
    initAjaxForms env form .rejected =
      (removeLoading (showLoading form),
       [Effect.fetch form.action (attrOr form.method "POST"), Effect.logError,
        Effect.notify (.str "An unexpected error occurred. Please try again.") "error"]) := rfl

theorem initAjaxForms_malformed (env : Env) (form : Form) :
    initAjaxForms env form .malformed =
      (removeLoading (showLoading form),
       [Effect.fetch form.action (attrOr form.method "POST"), Effect.logError,
        Effect.notify (.str "An unexpected error occurred. Please try again.") "error"]) := rfl

theorem initAjaxForms_null (env : Env) (form : Form) :
    initAjaxForms env form (.json .null) =
      (removeLoading (removeLoading (showLoading form)),
       [Effect.fetch form.action (attrOr form.method "POST"), Effect.logError,
        Effect.notify (.str "An unexpected error occurred. Please try again.") "error"]) := rfl

/-- The text of the `catch` branch. -/
theorem onCatch_effects (form : Form) :
    (onCatch form).2 =
      [Effect.logError,
       Effect.notify (.str "An unexpected error occurred. Please try again.") "error"] := rfl

/-- The handler on a response that is not `null`, as one conditional. -/
theorem initAjaxForms_json (env : Env) (form : Form) (data : Json) (h : data ≠ .null) :
    initAjaxForms env form (.json data) =
      if truthy (data.prop "success") then
        if callbackThrows env form data then
          (removeLoading { removeLoading (showLoading form) with
             children := successChildren data form.children },
           Effect.fetch form.action (attrOr form.method "POST") ::
             (successPrefix env form data ++
               [Effect.logError,
                Effect.notify (.str "An unexpected error occurred. Please try again.") "error"]))
        else
          ({ removeLoading (showLoading form) with
               children := successChildren data form.children },
           Effect.fetch form.action (attrOr form.method "POST") ::
             (successPrefix env form data ++ successSuffix data))
      else
        ({ removeLoading (showLoading form) with
             children := failureChildren data form.children },
         Effect.fetch form.action (attrOr form.method "POST") :: failureEffects data) := by
  have hcb : callbackThrows env (showLoading form) data = callbackThrows env form data := rfl
  have hpre : successPrefix env (showLoading form) data = successPrefix env form data := rfl
  cases data with
  | null => exact absurd rfl h
  | _ =>
    simp only [initAjaxForms, onResponse, hcb, hpre]
    split_ifs <;> rfl

theorem initAjaxForms_json_classes (env : Env) (form : Form) (data : Json) :
    "loading" ∉ (initAjaxForms env form (.json data)).1.classes := by
  by_cases h : data = .null
  · subst h
    rw [initAjaxForms_null]
    exact removeLoading_classes _
  · rw [initAjaxForms_json env form data h]
    split_ifs <;> exact removeLoading_classes _

theorem initAjaxForms_json_btn (env : Env) (form : Form) (data : Json) (btn : SubmitControl)
    (hbtn : form.submitBtn = some btn) :
    (initAjaxForms env form (.json data)).1.submitBtn =
      some { disabled := false, innerHTML := attrOr btn.originalText "Submit",
             originalText := btn.originalText } := by
  by_cases h : data = .null
  · subst h
    rw [initAjaxForms_null]
    simp [removeLoading, showLoading, hbtn]
  · rw [initAjaxForms_json env form data h]
    split_ifs
    · simp [removeLoading, showLoading, hbtn]
    · exact removeLoading_showLoading_btn form btn hbtn
    · exact removeLoading_showLoading_btn form btn hbtn

/-- The submit control after any outcome. -/
theorem initAjaxForms_btn (env : Env) (form : Form) (outcome : Outcome) (btn : SubmitControl)
    (hbtn : form.submitBtn = some btn) :
    (initAjaxForms env form outcome).1.submitBtn =
      some { disabled := false, innerHTML := attrOr btn.originalText "Submit",
             originalText := btn.originalText } := by
  cases outcome with
  | json data => exact initAjaxForms_json_btn env form data btn hbtn
  | malformed =>
    rw [initAjaxForms_malformed]
    exact removeLoading_showLoading_btn form btn hbtn
  | rejected =>
    rw [initAjaxForms_rejected]
    exact removeLoading_showLoading_btn form btn hbtn

/-- The class list after any outcome. -/
theorem initAjaxForms_classes (env : Env) (form : Form) (outcome : Outcome) :
    "loading" ∉ (initAjaxForms env form outcome).1.classes := by
  cases outcome with
  | json data => exact initAjaxForms_json_classes env form data
  | malformed =>
    rw [initAjaxForms_malformed]
    exact removeLoading_classes _
  | rejected =>
    rw [initAjaxForms_rejected]
    exact removeLoading_classes _

/-- C1: for every form with a submit control and every outcome of the
submission (a response of any shape, a response on which the handler or the
success callback throws, a malformed body, a rejected request), the form does
not carry the class `loading` afterwards and its submit control is enabled. -/
theorem C1_loading_state_always_left (env : Env) (form : Form) (btn : SubmitControl)
    (hbtn : form.submitBtn = some btn) (outcome : Outcome) :
    "loading" ∉ (initAjaxForms env form outcome).1.classes ∧
    ∃ b, (initAjaxForms env form outcome).1.submitBtn = some b ∧ b.disabled = false := by
  exact ⟨initAjaxForms_classes env form outcome, _,
    initAjaxForms_btn env form outcome btn hbtn, rfl⟩

/-- C1, at the sample form with a response on which the handler throws. -/
theorem C1_loading_state_always_left_witness :
    "loading" ∉ (initAjaxForms plainPage saveForm (.json .null)).1.classes ∧
    ∃ b, (initAjaxForms plainPage saveForm (.json .null)).1.submitBtn = some b ∧
      b.disabled = false :=
  C1_loading_state_always_left plainPage saveForm ⟨false, "Save", none⟩ rfl (.json .null)

theorem classListAdd_contains (c d : String) (cls : List String) (h : d ≠ c) :
    (classListAdd c cls).contains d = cls.contains d := by
  unfold classListAdd
  split_ifs
  · rfl
  · simp [h]

theorem addClass_hasName (c f : String) (x : Node) :
    (x.addClass c).hasName f = x.hasName f := by
  cases x <;> rfl

theorem addClass_findNode (c f : String) (x : Node) :
    findNode f (x.addClass c) = findNode f x := by
  cases x <;> simp [Node.addClass, findNode]

theorem markNode_attrs (g m : String) (x x2 : Node) (h : markNode g m x = some x2) :
    ∃ a ch ch2, x = .elem a ch ∧ x2 = .elem a ch2 ∧ markList g m ch = some ch2 := by
  cases x with
  | text s => simp [markNode] at h
  | elem a ch =>
    simp only [markNode, Option.map_eq_some'] at h
    obtain ⟨ch2, h1, h2⟩ := h
    exact ⟨a, ch, ch2, rfl, h2.symm, h1⟩

mutual
theorem markNode_eq_none (f m : String) : ∀ x : Node, markNode f m x = none ↔ findNode f x = none
  | .text _ => by simp [markNode, findNode]
  | .elem a ch => by simp [markNode, findNode, markList_eq_none f m ch]
theorem markList_eq_none (f m : String) :
    ∀ l : List Node, markList f m l = none ↔ findList f l = none
  | [] => by simp [markList, findList]
  | x :: rest => by
    have h1 := markNode_eq_none f m x
    have h2 := markList_eq_none f m rest
    simp only [markList, findList]
    split_ifs
    · simp
    · cases hx : markNode f m x with
      | none =>
        rw [h1.mp hx]
        simpa using h2
      | some x2 =>
        cases hy : findNode f x with
        | none => rw [h1.mpr hy] at hx; cases hx
        | some r => simp
end

mutual
theorem findNode_named (f : String) :
    ∀ x : Node, (findNode f x).isSome = true → namedInNode x = true
  | .text _ => by simp [findNode]
  | .elem a ch => by
    intro h
    simp only [findNode] at h
    simp [namedInNode, findList_named f ch h]
theorem findList_named (f : String) :
    ∀ l : List Node, (findList f l).isSome = true → namedInList l = true
  | [] => by simp [findList]
  | x :: rest => by
    intro h
    have h1 := findNode_named f x
    have h2 := findList_named f rest
    simp only [findList] at h
    simp only [namedInList, Bool.or_eq_true]
    split_ifs at h with hn
    · left
      cases x with
      | text s => simp [Node.hasName] at hn
      | elem a ch =>
        simp only [Node.hasName, beq_iff_eq] at hn
        simp [namedInNode, hn]
    · cases hy : findNode f x with
      | none =>
        rw [hy] at h
        exact Or.inr (h2 h)
      | some r =>
        left
        apply h1
        simp [hy]
end

mutual
/-- What `querySelector` finds after a field has been processed. -/
theorem markNode_find (f m : String) :
    ∀ (x : Node) (y : Node) (rest : List Node), findNode f x = some (y, rest) →
      ∃ x2, markNode f m x = some x2 ∧
        findNode f x2 = some (y.addClass "is-invalid", errorDiv m :: removeNextError rest)
  | .text _, y, rest => by simp [findNode]
  | .elem a ch, y, rest => by
    intro h
    simp only [findNode] at h
    obtain ⟨l2, h1, h2⟩ := markList_find f m ch y rest h
    exact ⟨.elem a l2, by simp [markNode, h1], by simpa [findNode] using h2⟩
theorem markList_find (f m : String) :
    ∀ (l : List Node) (y : Node) (rest : List Node), findList f l = some (y, rest) →
      ∃ l2, markList f m l = some l2 ∧
        findList f l2 = some (y.addClass "is-invalid", errorDiv m :: removeNextError rest)
  | [], y, rest => by simp [findList]
  | x :: tail, y, rest => by
    intro h
    have h1 := markNode_find f m x
    have h2 := markList_find f m tail
    simp only [findList] at h
    simp only [markList]
    split_ifs at h ⊢ with hn
    · simp only [Option.some.injEq, Prod.mk.injEq] at h
      obtain ⟨rfl, rfl⟩ := h
      exact ⟨_, rfl, by simp [findList, addClass_hasName, hn]⟩
    · cases hy : findNode f x with
      | none =>
        rw [hy] at h
        obtain ⟨l2, h3, h4⟩ := h2 y rest h
        have hx : markNode f m x = none := (markNode_eq_none f m x).mpr hy
        refine ⟨x :: l2, by simp [hx, h3], ?_⟩
        simp [findList, hn, hy, h4]
      | some r =>
        rw [hy] at h
        simp only [Option.some.injEq] at h
        subst h
        obtain ⟨x2, h3, h4⟩ := h1 y rest hy
        obtain ⟨a, ch, ch2, rfl, rfl, -⟩ := markNode_attrs f m x x2 h3
        refine ⟨Node.elem a ch2 :: tail, by simp [h3], ?_⟩
        have hn2 : (Node.elem a ch2).hasName f = false := by simpa [Node.hasName] using hn
        simp [findList, hn2, h4]
end


/-! ## Error elements without names keep the fields apart -/

theorem findList_eq_none_of_unnamed (f : String) (l : List Node) (h : namedInList l = false) :
    findList f l = none := by
  cases hf : findList f l with
  | none => rfl
  | some r =>
    have := findList_named f l (by simp [hf])
    simp [h] at this

theorem nonerror_of_named (a : Attrs) (ch : List Node)
    (hwf : errorsUnnamedNode (.elem a ch) = true)
    (hn : a.name.isSome = true ∨ namedInList ch = true) :
    a.classes.contains "invalid-feedback" = false ∧ errorsUnnamedList ch = true := by
  simp only [errorsUnnamedNode] at hwf
  split_ifs at hwf with he
  · rcases hn with hn | hn <;> simp [hn] at hwf
  · exact ⟨by simpa using he, hwf⟩

theorem error_not_found (f : String) (a : Attrs) (ch : List Node)
    (hwf : errorsUnnamedNode (.elem a ch) = true)
    (he : a.classes.contains "invalid-feedback" = true) :
    (Node.elem a ch).hasName f = false ∧ findNode f (.elem a ch) = none := by
  simp only [errorsUnnamedNode, he, if_true, Bool.not_eq_true', Bool.or_eq_false_iff] at hwf
  obtain ⟨h1, h2⟩ := hwf
  constructor
  · cases hname : a.name with
    | none => simp [Node.hasName, hname]
    | some s => simp [hname] at h1
  · simpa [findNode] using findList_eq_none_of_unnamed f ch h2

theorem errorDiv_not_found (f m : String) :
    (errorDiv m).hasName f = false ∧ findNode f (errorDiv m) = none := by
  unfold errorDiv
  constructor
  · rfl
  · split_ifs <;> simp [findNode, findList, Node.hasName]

theorem errorDiv_wf (m : String) : errorsUnnamedNode (errorDiv m) = true := by
  unfold errorDiv
  split_ifs <;> simp [errorsUnnamedNode, namedInList, namedInNode]

theorem removeNextError_find (f : String) :
    ∀ l : List Node, errorsUnnamedList l = true →
      findList f (removeNextError l) = findList f l
  | [] => by simp [removeNextError]
  | .text s :: rest => by
    intro h
    simp only [errorsUnnamedList, Bool.and_eq_true] at h
    simp [removeNextError, findList, Node.hasName, findNode, removeNextError_find f rest h.2]
  | .elem a ch :: rest => by
    intro h
    simp only [errorsUnnamedList, Bool.and_eq_true] at h
    simp only [removeNextError]
    split_ifs with he
    · obtain ⟨h1, h2⟩ := error_not_found f a ch h.1 he
      simp [findList, h1, h2]
    · rfl

theorem removeNextError_wf :
    ∀ l : List Node, errorsUnnamedList l = true → errorsUnnamedList (removeNextError l) = true
  | [] => by simp [removeNextError]
  | .text s :: rest => by
    intro h
    simp only [errorsUnnamedList, Bool.and_eq_true] at h
    simp [removeNextError, errorsUnnamedList, errorsUnnamedNode, removeNextError_wf rest h.2]
  | .elem a ch :: rest => by
    intro h
    simp only [removeNextError]
    split_ifs with he
    · simp only [errorsUnnamedList, Bool.and_eq_true] at h
      exact h.2
    · exact h

/-- A named element, or an element with a named descendant, has the same view
of following errors as any element with the same attributes. -/
theorem errorView_nonerror (a : Attrs) (ch : List Node) (tail : List Node)
    (he : a.classes.contains "invalid-feedback" = false) :
    errorView (.elem a ch :: tail) = [] := by
  have he2 : "invalid-feedback" ∉ a.classes := by simpa using he
  simp [errorView, he2]

theorem markList_named (g m : String) (l l2 : List Node) (h : markList g m l = some l2) :
    namedInList l = true := by
  apply findList_named g
  cases hf : findList g l with
  | none => rw [(markList_eq_none g m l).mpr hf] at h; cases h
  | some r => rfl

theorem hasName_named (g : String) (a : Attrs) (ch : List Node)
    (h : (Node.elem a ch).hasName g = true) : a.name.isSome = true := by
  simp only [Node.hasName, beq_iff_eq] at h
  simp [h]

/-- Processing a field leaves the run of text nodes and error elements at the
head of a list of siblings as it is. -/
theorem markList_errorView (g m : String) :
    ∀ l l2 : List Node, errorsUnnamedList l = true → markList g m l = some l2 →
      errorView l2 = errorView l
  | [], l2 => by simp [markList]
  | x :: tail, l2 => by
    intro hwf h
    simp only [errorsUnnamedList, Bool.and_eq_true] at hwf
    simp only [markList] at h
    split_ifs at h with hn
    · cases x with
      | text s => simp [Node.hasName] at hn
      | elem a ch =>
        have hne := (nonerror_of_named a ch hwf.1 (Or.inl (hasName_named g a ch hn))).1
        simp only [Option.some.injEq] at h
        subst h
        have hne2 : (classListAdd "is-invalid" a.classes).contains "invalid-feedback" = false := by
          rw [classListAdd_contains _ _ _ (by decide)]
          exact hne
        rw [errorView_nonerror a ch tail hne]
        exact errorView_nonerror _ ch _ hne2
    · cases hx : markNode g m x with
      | some x2 =>
        rw [hx] at h
        simp only [Option.some.injEq] at h
        subst h
        obtain ⟨a, ch, ch2, rfl, rfl, hch⟩ := markNode_attrs g m x x2 hx
        have hne := (nonerror_of_named a ch hwf.1 (Or.inr (markList_named g m ch ch2 hch))).1
        rw [errorView_nonerror a ch tail hne, errorView_nonerror a ch2 tail hne]
      | none =>
        rw [hx] at h
        simp only [Option.map_eq_some'] at h
        obtain ⟨r, hr, rfl⟩ := h
        have ih := markList_errorView g m tail r hwf.2 hr
        cases x with
        | text s => simp [errorView, ih]
        | elem a ch =>
          simp only [errorView, ih]


/-- The view taken of a found node and its following siblings. -/
theorem fieldView_cons_named (f : String) (x : Node) (tail : List Node)
    (h : x.hasName f = true) :
    fieldView f (x :: tail) = some (x.classes, errorView tail) := by
  simp [fieldView, findList, h]

theorem fieldView_cons_inside (f : String) (x : Node) (tail : List Node)
    (h : x.hasName f = false) (r : Node × List Node) (hr : findNode f x = some r) :
    fieldView f (x :: tail) = some (r.1.classes, errorView r.2) := by
  simp [fieldView, findList, h, hr]

theorem fieldView_cons_after (f : String) (x : Node) (tail : List Node)
    (h : x.hasName f = false) (hr : findNode f x = none) :
    fieldView f (x :: tail) = fieldView f tail := by
  simp [fieldView, findList, h, hr]

theorem hasName_ne (f g : String) (hfg : g ≠ f) (x : Node) (h : x.hasName g = true) :
    x.hasName f = false := by
  cases x with
  | text s => rfl
  | elem a ch =>
    simp only [Node.hasName, beq_iff_eq] at h
    simp [Node.hasName, h, hfg]

mutual
/-- Processing another field does not change what a field shows. -/
theorem markNode_fieldView (f g m : String) (hfg : g ≠ f) :
    ∀ x x2 : Node, errorsUnnamedNode x = true → markNode g m x = some x2 →
      (findNode f x2).map (fun r => (r.1.classes, errorView r.2))
        = (findNode f x).map (fun r => (r.1.classes, errorView r.2))
  | .text _, x2 => by simp [markNode]
  | .elem a ch, x2 => by
    intro hwf h
    obtain ⟨a2, c, c2, hx, rfl, hc⟩ := markNode_attrs g m _ x2 h
    cases hx
    have hch := (nonerror_of_named a ch hwf (Or.inr (markList_named g m ch c2 hc))).2
    have ih := markList_fieldView f g m hfg ch c2 hch hc
    simpa [fieldView, findNode] using ih
theorem markList_fieldView (f g m : String) (hfg : g ≠ f) :
    ∀ l l2 : List Node, errorsUnnamedList l = true → markList g m l = some l2 →
      fieldView f l2 = fieldView f l
  | [], l2 => by simp [markList]
  | x :: tail, l2 => by
    intro hwf h
    have ihn := markNode_fieldView f g m hfg x
    have ihl := markList_fieldView f g m hfg tail
    simp only [errorsUnnamedList, Bool.and_eq_true] at hwf
    simp only [markList] at h
    split_ifs at h with hn
    · simp only [Option.some.injEq] at h
      subst h
      have hxf : x.hasName f = false := hasName_ne f g hfg x hn
      have hxf2 : (x.addClass "is-invalid").hasName f = false := by
        rw [addClass_hasName]
        exact hxf
      cases hr : findNode f x with
      | some r =>
        rw [fieldView_cons_inside f x tail hxf r hr,
          fieldView_cons_inside f _ _ hxf2 r (by rw [addClass_findNode]; exact hr)]
      | none =>
        rw [fieldView_cons_after f x tail hxf hr,
          fieldView_cons_after f _ _ hxf2 (by rw [addClass_findNode]; exact hr),
          fieldView_cons_after f _ _ (errorDiv_not_found f m).1 (errorDiv_not_found f m).2]
        simp only [fieldView, removeNextError_find f tail hwf.2]
    · cases hx : markNode g m x with
      | some x2 =>
        rw [hx] at h
        simp only [Option.some.injEq] at h
        subst h
        have hview := ihn x2 hwf.1 hx
        obtain ⟨a, ch, ch2, rfl, rfl, hch⟩ := markNode_attrs g m x x2 hx
        by_cases hxf : (Node.elem a ch).hasName f = true
        · have hxf2 : (Node.elem a ch2).hasName f = true := hxf
          rw [fieldView_cons_named f _ _ hxf, fieldView_cons_named f _ _ hxf2]
          rfl
        · have hxf1 : (Node.elem a ch).hasName f = false := by simpa using hxf
          have hxf2 : (Node.elem a ch2).hasName f = false := hxf1
          cases hr : findNode f (Node.elem a ch) with
          | some r =>
            cases hr2 : findNode f (Node.elem a ch2) with
            | some r2 =>
              rw [hr, hr2] at hview
              simp only [Option.map_some', Option.some.injEq] at hview
              rw [fieldView_cons_inside f _ _ hxf1 r hr, fieldView_cons_inside f _ _ hxf2 r2 hr2,
                hview]
            | none =>
              rw [hr, hr2] at hview
              simp at hview
          | none =>
            cases hr2 : findNode f (Node.elem a ch2) with
            | some r2 =>
              rw [hr, hr2] at hview
              simp at hview
            | none =>
              rw [fieldView_cons_after f _ _ hxf1 hr, fieldView_cons_after f _ _ hxf2 hr2]
      | none =>
        rw [hx] at h
        simp only [Option.map_eq_some'] at h
        obtain ⟨r, hr, rfl⟩ := h
        by_cases hxf : x.hasName f = true
        · rw [fieldView_cons_named f _ _ hxf, fieldView_cons_named f _ _ hxf,
            markList_errorView g m tail r hwf.2 hr]
        · have hxf1 : x.hasName f = false := by simpa using hxf
          cases hfx : findNode f x with
          | some q =>
            rw [fieldView_cons_inside f _ _ hxf1 q hfx, fieldView_cons_inside f _ _ hxf1 q hfx]
          | none =>
            rw [fieldView_cons_after f _ _ hxf1 hfx, fieldView_cons_after f _ _ hxf1 hfx]
            exact ihl r hwf.2 hr
end

mutual
/-- Processing a field keeps error elements free of names. -/
theorem markNode_wf (g m : String) :
    ∀ x x2 : Node, errorsUnnamedNode x = true → markNode g m x = some x2 →
      errorsUnnamedNode x2 = true
  | .text _, x2 => by simp [markNode]
  | .elem a ch, x2 => by
    intro hwf h
    obtain ⟨a2, c, c2, hx, rfl, hc⟩ := markNode_attrs g m _ x2 h
    cases hx
    obtain ⟨hne, hch⟩ := nonerror_of_named a ch hwf (Or.inr (markList_named g m ch c2 hc))
    have ih := markList_wf g m ch c2 hch hc
    have hne2 : "invalid-feedback" ∉ a.classes := by simpa using hne
    simp [errorsUnnamedNode, hne2, ih]
theorem markList_wf (g m : String) :
    ∀ l l2 : List Node, errorsUnnamedList l = true → markList g m l = some l2 →
      errorsUnnamedList l2 = true
  | [], l2 => by simp [markList]
  | x :: tail, l2 => by
    intro hwf h
    have ihn := markNode_wf g m x
    have ihl := markList_wf g m tail
    simp only [errorsUnnamedList, Bool.and_eq_true] at hwf
    simp only [markList] at h
    split_ifs at h with hn
    · simp only [Option.some.injEq] at h
      subst h
      cases x with
      | text s => simp [Node.hasName] at hn
      | elem a ch =>
        obtain ⟨hne, hch⟩ := nonerror_of_named a ch hwf.1 (Or.inl (hasName_named g a ch hn))
        have hne2 : "invalid-feedback" ∉ classListAdd "is-invalid" a.classes := by
          have := classListAdd_contains "is-invalid" "invalid-feedback" a.classes (by decide)
          rw [hne] at this
          simpa using this
        simp only [errorsUnnamedList, Bool.and_eq_true]
        refine ⟨?_, errorDiv_wf m, removeNextError_wf tail hwf.2⟩
        simp [Node.addClass, errorsUnnamedNode, hne2, hch]
    · cases hx : markNode g m x with
      | some x2 =>
        rw [hx] at h
        simp only [Option.some.injEq] at h
        subst h
        simp [errorsUnnamedList, ihn x2 hwf.1 hx, hwf.2]
      | none =>
        rw [hx] at h
        simp only [Option.map_eq_some'] at h
        obtain ⟨r, hr, rfl⟩ := h
        simp [errorsUnnamedList, hwf.1, ihl r hwf.2 hr]
end


/-! ## `form.reset()` changes values only -/

theorem resetNode_hasName (f : String) (x : Node) : (resetNode x).hasName f = x.hasName f := by
  cases x <;> simp [resetNode, Node.hasName]

mutual
theorem resetNode_textContent : ∀ x : Node, (resetNode x).textContent = x.textContent
  | .text _ => by simp [resetNode]
  | .elem a ch => by simp [resetNode, Node.textContent, resetList_textContent ch]
theorem resetList_textContent : ∀ l : List Node, textContentList (resetList l) = textContentList l
  | [] => by simp [resetList]
  | x :: rest => by
    simp [resetList, textContentList, resetNode_textContent x, resetList_textContent rest]
end

mutual
theorem resetNode_find (f : String) : ∀ x : Node,
    findNode f (resetNode x) = (findNode f x).map fun r => (resetNode r.1, resetList r.2)
  | .text _ => by simp [resetNode, findNode]
  | .elem a ch => by simp [resetNode, findNode, resetList_find f ch]
theorem resetList_find (f : String) : ∀ l : List Node,
    findList f (resetList l) = (findList f l).map fun r => (resetNode r.1, resetList r.2)
  | [] => by simp [resetList, findList]
  | x :: rest => by
    have h1 := resetNode_find f x
    have h2 := resetList_find f rest
    simp only [resetList, findList, resetNode_hasName]
    split_ifs
    · simp
    · rw [h1]
      cases findNode f x with
      | some r => simp
      | none => simpa using h2
end

mutual
theorem resetNode_named : ∀ x : Node, namedInNode (resetNode x) = namedInNode x
  | .text _ => by simp [resetNode]
  | .elem a ch => by simp [resetNode, namedInNode, resetList_named ch]
theorem resetList_named : ∀ l : List Node, namedInList (resetList l) = namedInList l
  | [] => by simp [resetList]
  | x :: rest => by simp [resetList, namedInList, resetNode_named x, resetList_named rest]
end

mutual
theorem resetNode_wf : ∀ x : Node, errorsUnnamedNode (resetNode x) = errorsUnnamedNode x
  | .text _ => by simp [resetNode]
  | .elem a ch => by
    simp [resetNode, errorsUnnamedNode, resetList_named ch, resetList_wf ch]
theorem resetList_wf : ∀ l : List Node, errorsUnnamedList (resetList l) = errorsUnnamedList l
  | [] => by simp [resetList]
  | x :: rest => by simp [resetList, errorsUnnamedList, resetNode_wf x, resetList_wf rest]
end

/-! ## One field, then all fields, then whole submissions -/

mutual
theorem findNode_hasName (f : String) :
    ∀ (x : Node) (r : Node × List Node), findNode f x = some r → r.1.hasName f = true
  | .text _, r => by simp [findNode]
  | .elem a ch, r => by
    intro h
    exact findList_hasName f ch r (by simpa [findNode] using h)
theorem findList_hasName (f : String) :
    ∀ (l : List Node) (r : Node × List Node), findList f l = some r → r.1.hasName f = true
  | [], r => by simp [findList]
  | x :: rest, r => by
    intro h
    have h1 := findNode_hasName f x
    have h2 := findList_hasName f rest
    simp only [findList] at h
    split_ifs at h with hn
    · cases h
      exact hn
    · cases hy : findNode f x with
      | none =>
        rw [hy] at h
        exact h2 r h
      | some q =>
        rw [hy] at h
        cases h
        exact h1 _ hy
end

/-- Error elements must be free of names for a marked input to stay in the
form: when the input `email` carries the class `invalid-feedback` and follows
the input `user`, processing `user` after `email` removes the input `email`. -/
theorem named_error_element_is_removed :
    displayFieldErrors (.obj [("email", .str "Invalid address"), ("user", .str "Taken")])
      inputStyledAsError
      = [.elem ⟨some "user", ["is-invalid"], "", ""⟩ [], errorDiv "Taken",
         errorDiv "Invalid address"] := rfl

/-- Of two error elements that are already in the markup only the first is
replaced, so two error elements follow the input afterwards. -/
theorem second_error_in_markup_stays :
    displayFieldErrors (.obj [("email", .str "Invalid address")]) twoErrorsInMarkup
      = [.elem ⟨some "email", ["is-invalid"], "", ""⟩ [], errorDiv "Invalid address",
         errorDiv "old two"] ∧
    errorsAfter "email"
      (displayFieldErrors (.obj [("email", .str "Invalid address")]) twoErrorsInMarkup) = 2 := by
  constructor
  · rfl
  · decide


/-! ## Field errors leave the values of the controls alone -/

theorem fieldValuesIn_addClass (c : String) (x : Node) :
    fieldValuesIn (x.addClass c) = fieldValuesIn x := by
  cases x <;> simp [Node.addClass, fieldValuesIn]

theorem fieldValuesIn_errorDiv (m : String) : fieldValuesIn (errorDiv m) = [] := by
  unfold errorDiv
  split_ifs <;> simp [fieldValuesIn, fieldValues]

theorem removeNextError_fieldValues :
    ∀ l : List Node, (fieldValues (removeNextError l)).Sublist (fieldValues l)
  | [] => by simp [removeNextError]
  | .text s :: rest => by
    simpa [removeNextError, fieldValues, fieldValuesIn] using removeNextError_fieldValues rest
  | .elem a ch :: rest => by
    simp only [removeNextError]
    split_ifs
    · simp only [fieldValues]
      exact List.sublist_append_right _ _
    · exact List.Sublist.refl _

mutual
theorem markNode_fieldValues (g m : String) :
    ∀ x x2 : Node, markNode g m x = some x2 → (fieldValuesIn x2).Sublist (fieldValuesIn x)
  | .text _, x2 => by simp [markNode]
  | .elem a ch, x2 => by
    intro h
    obtain ⟨a2, c, c2, hx, rfl, hc⟩ := markNode_attrs g m _ x2 h
    cases hx
    simp only [fieldValuesIn]
    exact List.Sublist.append (List.Sublist.refl _) (markList_fieldValues g m ch c2 hc)
theorem markList_fieldValues (g m : String) :
    ∀ l l2 : List Node, markList g m l = some l2 → (fieldValues l2).Sublist (fieldValues l)
  | [], l2 => by simp [markList]
  | x :: tail, l2 => by
    intro h
    have ihn := markNode_fieldValues g m x
    have ihl := markList_fieldValues g m tail
    simp only [markList] at h
    split_ifs at h with hn
    · simp only [Option.some.injEq] at h
      subst h
      simp only [fieldValues, fieldValuesIn_addClass, fieldValuesIn_errorDiv, List.nil_append]
      exact List.Sublist.append (List.Sublist.refl _) (removeNextError_fieldValues tail)
    · cases hx : markNode g m x with
      | some x2 =>
        rw [hx] at h
        simp only [Option.some.injEq] at h
        subst h
        simp only [fieldValues]
        exact List.Sublist.append (ihn x2 hx) (List.Sublist.refl _)
      | none =>
        rw [hx] at h
        simp only [Option.map_eq_some'] at h
        obtain ⟨r, hr, rfl⟩ := h
        simp only [fieldValues]
        exact List.Sublist.append (List.Sublist.refl _) (ihl r hr)
end

/-- C6: a rejected request and a body that is not JSON are handled the same
way: the submit control is enabled again, exactly one notification is shown,
of severity `error` with the generic text, and the children of the form
(fields, invalid markers, inline error messages) are unchanged. -/
theorem C6_transport_failure_and_malformed_alike (env : Env) (form : Form) :
    initAjaxForms env form .malformed = initAjaxForms env form .rejected ∧
    notifications (initAjaxForms env form .rejected).2
      = [(.str "An unexpected error occurred. Please try again.", "error")] ∧
    (initAjaxForms env form .rejected).1.children = form.children ∧
    (initAjaxForms env form .rejected).1.submitBtn.map (fun b => b.disabled)
      = form.submitBtn.map (fun _ => false) := by
  refine ⟨rfl, rfl, rfl, ?_⟩
  rw [initAjaxForms_rejected]
  cases h : form.submitBtn <;> simp [removeLoading, showLoading, h]

/-- C7 as stated fails: a button labelled "Save" without a
`data-original-text` attribute reads "Submit" after the submission. -/
theorem C7_label_not_restored_without_attribute :
    saveForm.submitBtn.map (fun b => b.innerHTML) = some "Save" ∧
    (initAjaxForms plainPage saveForm (.json (.obj [("success", .bool true)]))).1.submitBtn.map
      (fun b => b.innerHTML) = some "Submit" := by
  constructor <;> rfl

/-- C7, amended: entering the loading state replaces the label with the busy
indicator, and leaving it, on any outcome, sets the label to the value of the
control's `data-original-text` attribute when that is present and not empty,
and to "Submit" otherwise. -/
theorem C7_label_from_original_text_attribute (env : Env) (form : Form) (btn : SubmitControl)
    (hbtn : form.submitBtn = some btn) (outcome : Outcome) :
    (showLoading form).submitBtn.map (fun b => b.innerHTML) = some busyLabel ∧
    (initAjaxForms env form outcome).1.submitBtn.map (fun b => b.innerHTML)
      = some (match btn.originalText with
              | some label => if label = "" then "Submit" else label
              | none => "Submit") := by
  constructor
  · simp [showLoading, hbtn]
  · rw [initAjaxForms_btn env form outcome btn hbtn]
    rfl

/-- C7 amended, at the sample form and a rejected request. -/
theorem C7_label_from_original_text_attribute_witness :
    (showLoading saveForm).submitBtn.map (fun b => b.innerHTML) = some busyLabel ∧
    (initAjaxForms plainPage saveForm .rejected).1.submitBtn.map (fun b => b.innerHTML)
      = some "Submit" :=
  C7_label_from_original_text_attribute plainPage saveForm ⟨false, "Save", none⟩ rfl .rejected


/-! ## The notification presenter -/

set_option maxRecDepth 20000 in
/-- C9 fails on the code: a click on the close button 5 ms after creation
triggers the dismissal, and the show timer at 10 ms still adds the class
`show`, so the dismissed notification is on screen from 10 ms until it is
removed at 305 ms. -/
theorem C9_click_before_show_tick_reappears :
    (run (List.replicate 5 Event.tick ++ [Event.click])
      (showNotification (.str "Saved") (some "success"))).dismissals = 1 ∧
    (run (List.replicate 5 Event.tick ++ [Event.click])
      (showNotification (.str "Saved") (some "success"))).visible = false ∧
    (run (List.replicate 5 Event.tick ++ [Event.click] ++ List.replicate 5 Event.tick)
      (showNotification (.str "Saved") (some "success"))).visible = true ∧
    (run (List.replicate 5 Event.tick ++ [Event.click] ++ List.replicate 5 Event.tick)
      (showNotification (.str "Saved") (some "success"))).dismissals = 1 ∧
    (run (List.replicate 5 Event.tick ++ [Event.click] ++ List.replicate 299 Event.tick)
      (showNotification (.str "Saved") (some "success"))).visible = true ∧
    (run (List.replicate 5 Event.tick ++ [Event.click] ++ List.replicate 300 Event.tick)
      (showNotification (.str "Saved") (some "success"))).attached = false := by
  decide

/-- C10: the class name is `notification notification-` followed by the
severity, `info` standing in for an omitted severity; the icon is
`check-circle` for `success`, `exclamation-circle` for `error`,
`exclamation-triangle` for `warning`, and `info-circle` for `info`, for an
omitted severity and for every other value. -/
theorem C10_icon_and_class_from_severity (message : Json) (type : String) :
    (showNotification message (some type)).className = "notification notification-" ++ type ∧
    (showNotification message none).className = "notification notification-info" ∧
    (showNotification message (some "info")).icon = "info-circle" ∧
    (showNotification message (some "success")).icon = "check-circle" ∧
    (showNotification message (some "error")).icon = "exclamation-circle" ∧
    (showNotification message (some "warning")).icon = "exclamation-triangle" ∧
    (showNotification message none).icon = "info-circle" ∧
    (type ≠ "success" → type ≠ "error" → type ≠ "warning" →
      (showNotification message (some type)).icon = "info-circle") ∧
    (showNotification message (some type)).icon ∈
      ["info-circle", "check-circle", "exclamation-circle", "exclamation-triangle"] := by
  refine ⟨rfl, rfl, rfl, rfl, rfl, rfl, rfl, ?_, ?_⟩
  · intro h1 h2 h3
    simp [showNotification, iconFor, h1, h2, h3]
  · simp only [showNotification, iconFor, Option.getD_some]
    split_ifs <;> simp

/-- C10, at a severity outside the four known ones. -/
theorem C10_icon_and_class_from_severity_witness :
    (showNotification (.str "Saved") (some "debug")).icon = "info-circle" :=
  (C10_icon_and_class_from_severity (.str "Saved") "debug").2.2.2.2.2.2.2.1
    (by decide) (by decide) (by decide)

/-! ## The like button -/

/-- C14 fails on the code: for a form without an `action` attribute the
handler passes `null` to `fetch`, which requests the relative reference
"null", not the URL of the current page (the empty reference). -/
theorem C14_absent_action_requests_null :
    commentForm.action = none ∧
    (initAjaxForms plainPage commentForm .rejected).2.head? = some (Effect.fetch none "post") ∧
    fetchInput none = "null" := by
  refine ⟨rfl, rfl, rfl⟩

/-! ## Cookies -/

theorem splitOn_no_sep (sep : Char) : ∀ l : List Char, sep ∉ l → splitOn sep l = [l]
  | [], _ => rfl
  | c :: cs, h => by
    have hc : c ≠ sep := fun e => h (by simp [e])
    have hcs : sep ∉ cs := fun e => h (by simp [e])
    simp [splitOn, hc, splitOn_no_sep sep cs hcs]

theorem splitOn_append_sep (sep : Char) (rest : List Char) :
    ∀ l : List Char, sep ∉ l → splitOn sep (l ++ sep :: rest) = l :: splitOn sep rest
  | [], _ => by simp [splitOn]
  | c :: cs, h => by
    have hc : c ≠ sep := fun e => h (by simp [e])
    have hcs : sep ∉ cs := fun e => h (by simp [e])
    simp [splitOn, hc, splitOn_append_sep sep rest cs hcs]

theorem dropSpaces_spaces_append (l : List Char) :
    ∀ ws : List Char, ws.all isJsSpace = true → dropSpaces (ws ++ l) = dropSpaces l
  | [], _ => rfl
  | c :: cs, h => by
    simp only [List.all_cons, Bool.and_eq_true] at h
    simp [dropSpaces, h.1, dropSpaces_spaces_append l cs h.2]

theorem dropSpaces_of_head (l : List Char) (h : l.head?.all (fun c => !isJsSpace c) = true) :
    dropSpaces l = l := by
  cases l with
  | nil => rfl
  | cons c cs =>
    have hc : isJsSpace c = false := by simpa using h
    simp [dropSpaces, hc]

/-- Trimming strips the white space around a text that neither starts nor
ends with white space. -/
theorem trimJs_padded (before core after : List Char)
    (hb : before.all isJsSpace = true) (ha : after.all isJsSpace = true)
    (hhead : core.head?.all (fun c => !isJsSpace c) = true)
    (hlast : core.getLast?.all (fun c => !isJsSpace c) = true) :
    trimJs (before ++ core ++ after) = core := by
  unfold trimJs
  rw [List.append_assoc, dropSpaces_spaces_append _ before hb]
  by_cases hcore : core = []
  · subst hcore
    have h1 : dropSpaces after = [] := by
      have := dropSpaces_spaces_append [] after ha
      simpa [dropSpaces] using this
    simp [h1, dropSpaces]
  · have hhead2 : (core ++ after).head?.all (fun c => !isJsSpace c) = true := by
      cases core with
      | nil => exact absurd rfl hcore
      | cons c cs => simpa using hhead
    rw [dropSpaces_of_head _ hhead2, List.reverse_append,
      dropSpaces_spaces_append _ after.reverse (by simpa using ha),
      dropSpaces_of_head _ (by simpa [List.head?_reverse] using hlast), List.reverse_reverse]

theorem take_name_eq (value : List Char) :
    ∀ name n : List Char, '=' ∉ name → '=' ∉ n →
      ((name ++ '=' :: value).take (n.length + 1) = n ++ ['='] ↔ name = n)
  | [], [], _, _ => by simp
  | [], d :: ds, _, hn => by
    have hd : d ≠ '=' := fun e => hn (by simp [e])
    simp [List.take, Ne.symm hd]
  | c :: cs, [], hname, _ => by
    have hc : c ≠ '=' := fun e => hname (by simp [e])
    simp [List.take, hc]
  | c :: cs, d :: ds, hname, hn => by
    have hcs : '=' ∉ cs := fun e => hname (by simp [e])
    have hds : '=' ∉ ds := fun e => hn (by simp [e])
    have ih := take_name_eq value cs ds hcs hds
    simp only [List.cons_append, List.length_cons, List.take_succ_cons, List.cons.injEq]
    rw [ih]

theorem drop_name (value : List Char) :
    ∀ n : List Char, (n ++ '=' :: value).drop (n.length + 1) = value
  | [] => rfl
  | d :: ds => by simp [drop_name value ds]

theorem isJsSpace_semicolon : isJsSpace ';' = false := by decide

theorem not_mem_of_all_space (ws : List Char) (h : ws.all isJsSpace = true) : ';' ∉ ws := by
  intro hm
  have := List.all_eq_true.mp h ';' hm
  simp [isJsSpace_semicolon] at this

/-- The parts of a well-formed entry. -/
theorem CookieEntry.wellFormed_parts (e : CookieEntry) (h : e.wellFormed = true) :
    e.before.all isJsSpace = true ∧ e.after.all isJsSpace = true ∧
    ';' ∉ e.name ∧ '=' ∉ e.name ∧ ';' ∉ e.value ∧
    e.name.head?.all (fun c => !isJsSpace c) = true ∧
    e.value.getLast?.all (fun c => !isJsSpace c) = true := by
  simp only [CookieEntry.wellFormed, Bool.and_eq_true, Bool.not_eq_true'] at h
  obtain ⟨⟨⟨⟨⟨⟨h1, h2⟩, h3⟩, h4⟩, h5⟩, h6⟩, h7⟩ := h
  exact ⟨h1, h2, by simpa using h3, by simpa using h4, by simpa using h5, h6, h7⟩

theorem CookieEntry.text_no_semicolon (e : CookieEntry) (h : e.wellFormed = true) :
    ';' ∉ e.text := by
  obtain ⟨h1, h2, h3, -, h5, -, -⟩ := e.wellFormed_parts h
  have hb := not_mem_of_all_space _ h1
  have ha := not_mem_of_all_space _ h2
  simp [CookieEntry.text, hb, ha, h3, h5]

theorem CookieEntry.trim_text (e : CookieEntry) (h : e.wellFormed = true) :
    trimJs e.text = e.name ++ '=' :: e.value := by
  obtain ⟨h1, h2, -, -, -, h6, h7⟩ := e.wellFormed_parts h
  unfold CookieEntry.text
  apply trimJs_padded _ _ _ h1 h2
  · cases hn : e.name with
    | nil => simp [isJsSpace]
    | cons c cs => simpa [hn] using h6
  · cases hv : e.value using List.reverseRecOn with
    | nil => simp [isJsSpace]
    | append_singleton l a =>
      rw [hv] at h7
      have : (e.name ++ '=' :: (l ++ [a])) = (e.name ++ '=' :: l) ++ [a] := by simp
      rw [this, List.getLast?_append]
      simpa using h7

theorem splitOn_cookieString :
    ∀ entries : List CookieEntry, entries ≠ [] → (∀ e ∈ entries, e.wellFormed = true) →
      splitOn ';' (cookieString entries) = entries.map CookieEntry.text
  | [], h, _ => absurd rfl h
  | [e], _, hwf => by
    simp [cookieString, splitOn_no_sep _ _ (e.text_no_semicolon (hwf e (by simp)))]
  | e :: e2 :: rest, _, hwf => by
    have ih := splitOn_cookieString (e2 :: rest) (by simp)
      (fun x hx => hwf x (List.mem_cons_of_mem _ hx))
    simp only [cookieString] at ih ⊢
    rw [splitOn_append_sep _ _ _ (e.text_no_semicolon (hwf e (by simp))), ih]
    rfl

/-- The loop of `getCookie` over well-formed entries finds the first entry
with exactly the name asked for. -/
theorem cookieLoop_entries (decode : String → Option String) (n : List Char) (hn : '=' ∉ n) :
    ∀ entries : List CookieEntry, (∀ e ∈ entries, e.wellFormed = true) →
      cookieLoop decode n (entries.map CookieEntry.text) =
        match entries.find? (fun e => e.name = n) with
        | some e =>
            (match decode (String.mk e.value) with
             | some value => .ok (some value)
             | none => .error ())
        | none => .ok none
  | [], _ => rfl
  | e :: rest, hwf => by
    have hwe := hwf e (by simp)
    have ih := cookieLoop_entries decode n hn rest (fun x hx => hwf x (List.mem_cons_of_mem _ hx))
    obtain ⟨-, -, -, h4, -, -, -⟩ := e.wellFormed_parts hwe
    simp only [List.map_cons, cookieLoop, e.trim_text hwe, take_name_eq e.value e.name n h4 hn]
    by_cases hname : e.name = n
    · simp only [hname, if_true, List.find?_cons, decide_True]
      rw [← hname, drop_name]
    · simp only [hname, if_false, List.find?_cons, decide_False]
      exact ih

theorem cookieString_ne_nil (e : CookieEntry) (rest : List CookieEntry) :
    cookieString (e :: rest) ≠ [] := by
  cases rest <;> simp [cookieString, CookieEntry.text]

theorem likePost_request (decode : String → Option String) (documentCookie : String)
    (btn : LikeButton) (postId : String) (outcome : Outcome) (token : Option String)
    (htok : getCookie decode documentCookie "csrftoken" = .ok token) :
    ∃ after effects, likePost decode documentCookie (some btn) postId outcome
      = .ok (some after, LikeEffect.request ("/like-post/" ++ postId ++ "/") token :: effects) := by
  cases outcome with
  | malformed =>
    exact ⟨btn, [LikeEffect.logError,
      LikeEffect.notify (.str "An unexpected error occurred. Please try again.") "error"],
      by simp [likePost, htok]⟩
  | rejected =>
    exact ⟨btn, [LikeEffect.logError,
      LikeEffect.notify (.str "An unexpected error occurred. Please try again.") "error"],
      by simp [likePost, htok]⟩
  | json data =>
    cases hr : likeResponse btn data with
    | ok r => exact ⟨r.1, r.2, by simp [likePost, htok, hr]⟩
    | error r =>
      exact ⟨r.1, r.2 ++ [LikeEffect.logError,
        LikeEffect.notify (.str "An unexpected error occurred. Please try again.") "error"],
        by simp [likePost, htok, hr]⟩

/-- C16: for a cookie string made of well-formed `name=value` entries
separated by `;` and a name without `=`, `getCookie` gives the decoded value
of the first entry whose name is exactly that name and `null` when there is
none (so for the empty cookie string, and whatever longer names contain the
name); it throws only when `decodeURIComponent` throws on that value; and
`likePost` sends the result for `csrftoken` as the `X-CSRFToken` header of
its request. -/
theorem C16_getCookie_first_entry_of_name (decode : String → Option String)
    (entries : List CookieEntry) (name : String)
    (hwf : ∀ e ∈ entries, e.wellFormed = true) (hname : '=' ∉ name.toList) :
    getCookie decode (String.mk (cookieString entries)) name =
      (match entries.find? (fun e => e.name = name.toList) with
       | some e =>
           (match decode (String.mk e.value) with
            | some value => .ok (some value)
            | none => .error ())
       | none => .ok none) ∧
    ∀ (btn : LikeButton) (postId : String) (outcome : Outcome) (token : Option String),
      getCookie decode (String.mk (cookieString entries)) "csrftoken" = .ok token →
      ∃ after effects, likePost decode (String.mk (cookieString entries)) (some btn) postId outcome
        = .ok (some after,
            LikeEffect.request ("/like-post/" ++ postId ++ "/") token :: effects) := by
  refine ⟨?_, fun btn postId outcome token h => likePost_request decode _ btn postId outcome token h⟩
  cases entries with
  | nil => rfl
  | cons e rest =>
    have hne : String.mk (cookieString (e :: rest)) ≠ "" := by
      intro h
      exact cookieString_ne_nil e rest (congrArg String.data h)
    unfold getCookie
    rw [if_pos hne]
    show cookieLoop decode name.toList (splitOn ';' (cookieString (e :: rest))) = _
    rw [splitOn_cookieString (e :: rest) (by simp) hwf]
    exact cookieLoop_entries decode name.toList hname (e :: rest) hwf

/-- C16, at the sample cookie string: neither `xcsrftoken` nor `csrftoken2` is
taken for `csrftoken`, and the value found is decoded. -/
theorem C16_getCookie_first_entry_of_name_witness :
    String.mk (cookieString sampleCookies)
      = "xcsrftoken=1; csrftoken2=x; csrftoken=a%20b ; theme=dark" ∧
    getCookie sampleDecode (String.mk (cookieString sampleCookies)) "csrftoken"
      = .ok (some "a b") :=
  ⟨by decide,
   (C16_getCookie_first_entry_of_name sampleDecode sampleCookies "csrftoken"
      (by decide) (by decide)).1⟩

/-! ## Dark mode -/

/-- C13: in both implementations, when the user toggles the theme, whatever
the state before, the value stored under `theme` is "dark" exactly when the
page ends in dark mode and "light" otherwise, and initialising a fresh page
with that stored value (for `main.js`: a page with the footer, whose body
starts without the class) gives the same mode again, whatever the system
preference is. -/
theorem C13_theme_round_trip (p : ModernPage) (checked : Bool) (q : ClassicPage)
    (label : String) (hp : p.toggle = some checked) (hq : q.button = some label)
    (systemDark bodyBefore : Bool) (toggleBefore : Option Bool) :
    (userToggle p).theme = some (if (userToggle p).bodyDark then "dark" else "light") ∧
    (initDarkMode systemDark ⟨bodyBefore, (userToggle p).theme, toggleBefore⟩).bodyDark
      = (userToggle p).bodyDark ∧
    (clickDarkModeToggle q).theme
      = some (if (clickDarkModeToggle q).bodyDark then "dark" else "light") ∧
    (createDarkModeToggle systemDark ⟨false, (clickDarkModeToggle q).theme, true, none⟩).bodyDark
      = (clickDarkModeToggle q).bodyDark := by
  refine ⟨?_, ?_, ?_, ?_⟩
  · cases checked <;> simp [userToggle, onToggleChange, hp]
  · cases checked <;> simp [userToggle, onToggleChange, hp, initDarkMode, storedTruthy]
  · cases hb : q.bodyDark <;> simp [clickDarkModeToggle, hq, hb]
  · cases hb : q.bodyDark <;> cases systemDark <;>
      simp [clickDarkModeToggle, hq, hb, createDarkModeToggle, storedTruthy]

/-- C13, at two light pages with nothing stored, reloaded on a system that
prefers light. -/
theorem C13_theme_round_trip_witness :
    (userToggle lightModern).theme = some "dark" ∧
    (initDarkMode false ⟨false, (userToggle lightModern).theme, some false⟩).bodyDark = true ∧
    (clickDarkModeToggle lightClassic).theme = some "dark" ∧
    (createDarkModeToggle false
      ⟨false, (clickDarkModeToggle lightClassic).theme, true, none⟩).bodyDark = true :=
  C13_theme_round_trip lightModern false lightClassic moonLabel rfl rfl false false (some false)

/-! ## Reading time -/

theorem splitRuns_length_pos (b : Bool) (l : List Char) : 0 < (splitRuns b l).length := by
  induction l generalizing b with
  | nil => simp [splitRuns]
  | cons c cs ih =>
    simp only [splitRuns]
    split_ifs
    · exact ih true
    · simp
    · split <;> simp

theorem splitRuns_length_cons (b : Bool) (c : Char) (cs : List Char) :
    (splitRuns b (c :: cs)).length =
      if isJsSpace c then (if b then 0 else 1) + (splitRuns true cs).length
      else (splitRuns false cs).length := by
  simp only [splitRuns]
  split_ifs
  · simp
  · simp [Nat.add_comm]
  · have := splitRuns_length_pos false cs
    split
    · rename_i h
      rw [h] at this
      simp at this
    · rename_i h
      rw [h]
      simp

/-- The number of pieces of the split in terms of the number of words, inside
a word and after white space. -/
theorem splitRuns_length_eq (l : List Char) :
    (splitRuns false l).length
        = countWords true l + 1 + (if lastIsSpace false l then 1 else 0) ∧
    (splitRuns true l).length
        = countWords false l + (if lastIsSpace true l then 1 else 0) := by
  induction l with
  | nil => simp [splitRuns, countWords, lastIsSpace]
  | cons c cs ih =>
    obtain ⟨ih1, ih2⟩ := ih
    rw [splitRuns_length_cons, splitRuns_length_cons]
    by_cases hc : isJsSpace c = true
    · simp only [hc, if_true, countWords, lastIsSpace, ih2]
      constructor <;> (simp; try omega)
    · have hc2 : isJsSpace c = false := by simpa using hc
      simp only [hc2, countWords, lastIsSpace, ih1]
      constructor <;> (simp; try omega)

/-- The number of pieces of `text.split(/\s+/)`. -/
theorem splitSpaces_length (text : String) :
    (splitSpaces text).length
      = wordCount text + (if startsBlank text then 1 else 0) + (if endsBlank text then 1 else 0) := by
  unfold splitSpaces wordCount startsBlank endsBlank
  rw [List.length_map]
  generalize text.toList = l
  cases l with
  | nil => simp [splitRuns, countWords, lastIsSpace]
  | cons c cs =>
    rw [splitRuns_length_cons]
    obtain ⟨h1, h2⟩ := splitRuns_length_eq cs
    by_cases hc : isJsSpace c = true
    · simp only [hc, if_true, countWords, List.head?_cons, lastIsSpace, h2]
      simp
      omega
    · have hc2 : isJsSpace c = false := by simpa using hc
      simp only [hc2, countWords, List.head?_cons, lastIsSpace, h1]
      simp
      omega

set_option maxRecDepth 100000 in
/-- C17 fails on the code: an empty text has no word, yet it is shown as "1
min read"; and two hundred words followed by a space are shown as two minutes,
because the empty piece after the last space is counted as a word. -/
theorem C17_pieces_counted_not_words :
    wordCount "" = 0 ∧ readingTime "" = 1 ∧
    calculateReadingTime (some "") (some "") = some "1 min read" ∧
    wordCount twoHundredWords = 200 ∧ readingTime twoHundredWords = 2 := by
  decide

/-- What both functions show in general: `ceil(N / 200)` minutes, where `N` is
the number of pieces of `text.split(/\s+/)`, that is the number of words, plus
one when the text is empty or starts with white space, plus one when it ends
with white space; so at least one minute is shown. -/
theorem readingTime_counts_pieces (text : String) (shown : String)
    (children : List String) :
    readingTime text =
      (wordCount text + (if startsBlank text then 1 else 0)
        + (if endsBlank text then 1 else 0) + 199) / 200 ∧
    1 ≤ readingTime text ∧
    calculateReadingTime (some text) (some shown)
      = some (toString (readingTime text) ++ " min read") ∧
    addReadingTime (some text) (some children)
      = some (children ++
          ["<i class=\"far fa-clock\"></i> " ++ toString (readingTime text) ++ " min read"]) := by
  refine ⟨?_, ?_, rfl, rfl⟩
  · unfold readingTime
    rw [splitSpaces_length]
  · unfold readingTime
    have h : 0 < (splitSpaces text).length := by
      unfold splitSpaces
      rw [List.length_map]
      exact splitRuns_length_pos false _
    omega

/-! ## Dropdowns -/

theorem openCount_map_closeModern (ds : List Dropdown) :
    openCount (ds.map closeModern) = 0 := by
  induction ds with
  | nil => rfl
  | cons d rest ih =>
    cases hd : d.shown <;> simp [openCount, closeModern, hd, ih]

theorem openCount_map_closeClassic (ds : List Dropdown) :
    openCount (ds.map closeClassic) = 0 := by
  induction ds with
  | nil => rfl
  | cons d rest ih =>
    cases hd : d.shown <;> simp [openCount, closeClassic, hd, ih]

theorem isOpen_of_openCount_zero (ds : List Dropdown) (h : openCount ds = 0) (j : Nat) :
    isOpen ds j = false := by
  induction ds generalizing j with
  | nil => rfl
  | cons d rest ih =>
    simp only [openCount] at h
    have hd : d.shown = false := by
      cases hs : d.shown
      · rfl
      · simp [hs] at h
    have hrest : openCount rest = 0 := by omega
    cases j with
    | zero => simpa [isOpen] using hd
    | succ j => simpa [isOpen] using ih hrest j

theorem modernToggleAt_spec (i : Nat) (ds : List Dropdown) (hi : i < ds.length) (j : Nat) :
    isOpen (modernToggleAt i ds) j = (if j = i then !isOpen ds i else false) ∧
    openCount (modernToggleAt i ds) ≤ 1 := by
  induction ds generalizing i j with
  | nil => simp at hi
  | cons d rest ih =>
    cases i with
    | zero =>
      have h0 := openCount_map_closeModern rest
      constructor
      · cases j with
        | zero => simp [modernToggleAt, isOpen]
        | succ j => simpa [modernToggleAt, isOpen] using isOpen_of_openCount_zero _ h0 j
      · simp only [modernToggleAt, openCount, h0]
        split_ifs <;> omega
    | succ i =>
      have hi2 : i < rest.length := by simpa using hi
      have hclose : (closeModern d).shown = false := by
        cases hd : d.shown <;> simp [closeModern, hd]
      constructor
      · cases j with
        | zero => simp [modernToggleAt, isOpen, hclose]
        | succ j => simpa [modernToggleAt, isOpen] using (ih i hi2 j).1
      · have := (ih i hi2 0).2
        simp only [modernToggleAt, openCount, hclose]
        simpa using this

theorem classicToggleAt_spec (i : Nat) (ds : List Dropdown) (hi : i < ds.length) (j : Nat) :
    isOpen (classicToggleAt i ds) j = (if j = i then !isOpen ds i else false) ∧
    openCount (classicToggleAt i ds) ≤ 1 := by
  induction ds generalizing i j with
  | nil => simp at hi
  | cons d rest ih =>
    cases i with
    | zero =>
      have h0 := openCount_map_closeClassic rest
      constructor
      · cases j with
        | zero => simp [classicToggleAt, isOpen]
        | succ j => simpa [classicToggleAt, isOpen] using isOpen_of_openCount_zero _ h0 j
      · simp only [classicToggleAt, openCount, h0]
        split_ifs <;> omega
    | succ i =>
      have hi2 : i < rest.length := by simpa using hi
      have hclose : (closeClassic d).shown = false := by
        cases hd : d.shown <;> simp [closeClassic, hd]
      constructor
      · cases j with
        | zero => simp [classicToggleAt, isOpen, hclose]
        | succ j => simpa [classicToggleAt, isOpen] using (ih i hi2 j).1
      · have := (ih i hi2 0).2
        simp only [classicToggleAt, openCount, hclose]
        simpa using this

theorem modernClick_openCount (ds : List Dropdown) (c : Click) (h : openCount ds ≤ 1) :
    openCount (initDropdowns ds c) ≤ 1 := by
  cases c with
  | toggle i =>
    simp only [initDropdowns]
    split_ifs with hi
    · exact (modernToggleAt_spec i ds hi 0).2
    · exact h
  | outside => simp [initDropdowns, openCount_map_closeModern]

theorem classicClick_openCount (ds : List Dropdown) (c : Click) (h : openCount ds ≤ 1) :
    openCount (classicClick ds c) ≤ 1 := by
  cases c with
  | toggle i =>
    simp only [classicClick]
    split_ifs with hi
    · exact (classicToggleAt_spec i ds hi 0).2
    · exact h
  | outside => simp [classicClick, openCount_map_closeClassic]

theorem foldl_modernClick_openCount (events : List Click) :
    ∀ ds : List Dropdown, openCount ds ≤ 1 → openCount (events.foldl initDropdowns ds) ≤ 1 := by
  induction events with
  | nil => exact fun _ h => h
  | cons c cs ih => exact fun ds h => ih _ (modernClick_openCount ds c h)

theorem foldl_classicClick_openCount (events : List Click) :
    ∀ ds : List Dropdown, openCount ds ≤ 1 → openCount (events.foldl classicClick ds) ≤ 1 := by
  induction events with
  | nil => exact fun _ h => h
  | cons c cs ih => exact fun ds h => ih _ (classicClick_openCount ds c h)

/-- C18: for both dropdown handlers, from a state with at most one open menu
every sequence of toggle clicks and outside clicks leads to a state with at
most one open menu; a click on the toggle with index `i` leaves the menu `i`
open exactly when it was closed and every other menu closed; and a click
outside every dropdown leaves every menu closed. -/
theorem C18_at_most_one_dropdown_open (ds : List Dropdown) (events : List Click) (i j : Nat)
    (hone : openCount ds ≤ 1) (hi : i < ds.length) :
    openCount (events.foldl initDropdowns ds) ≤ 1 ∧
    openCount (events.foldl classicClick ds) ≤ 1 ∧
    isOpen (initDropdowns ds (.toggle i)) j = (if j = i then !isOpen ds i else false) ∧
    isOpen (classicClick ds (.toggle i)) j = (if j = i then !isOpen ds i else false) ∧
    isOpen (initDropdowns ds .outside) j = false ∧
    isOpen (classicClick ds .outside) j = false := by
  refine ⟨foldl_modernClick_openCount events ds hone, foldl_classicClick_openCount events ds hone,
    ?_, ?_, ?_, ?_⟩
  · simp only [initDropdowns, hi, if_true]
    exact (modernToggleAt_spec i ds hi j).1
  · simp only [classicClick, hi, if_true]
    exact (classicToggleAt_spec i ds hi j).1
  · exact isOpen_of_openCount_zero _ (openCount_map_closeModern ds) j
  · exact isOpen_of_openCount_zero _ (openCount_map_closeClassic ds) j

/-- C18, at three dropdowns with the second open: after a click on the first
toggle, an outside click and a click on the third toggle at most one menu is
open, and a click on the first toggle closes the second menu. -/
theorem C18_at_most_one_dropdown_open_witness :
    openCount ([Click.toggle 0, Click.outside, Click.toggle 2].foldl initDropdowns threeDropdowns)
      ≤ 1 ∧
    isOpen (initDropdowns threeDropdowns (.toggle 0)) 1 = false :=
  ⟨(C18_at_most_one_dropdown_open threeDropdowns [Click.toggle 0, Click.outside, Click.toggle 2]
      0 1 (by decide) (by decide)).1,
   (C18_at_most_one_dropdown_open threeDropdowns [] 0 1 (by decide) (by decide)).2.2.1⟩

/-! ## Field errors are processed independently -/

theorem applyMarkIn_text (f m s : String) : applyMarkIn f m (.text s) = .text s := rfl

theorem applyMarkIn_elem (f m : String) (a : Attrs) (ch : List Node) :
    applyMarkIn f m (.elem a ch) = .elem a (applyMark f m ch) := by
  unfold applyMarkIn applyMark
  simp only [markNode]
  cases markList f m ch <;> rfl

theorem applyMark_nil (f m : String) : applyMark f m [] = [] := rfl

/-- The three cases of one iteration on a list of siblings. -/
theorem applyMark_cons (f m : String) (x : Node) (tail : List Node) :
    applyMark f m (x :: tail) =
      if x.hasName f then x.addClass "is-invalid" :: errorDiv m :: removeNextError tail
      else if (findNode f x).isSome then applyMarkIn f m x :: tail
      else x :: applyMark f m tail := by
  unfold applyMark applyMarkIn
  simp only [markList]
  split_ifs with h1 h2
  · rfl
  · cases hx : markNode f m x with
    | none =>
      rw [(markNode_eq_none f m x).mp hx] at h2
      simp at h2
    | some x2 => rfl
  · have hx : markNode f m x = none := by
      apply (markNode_eq_none f m x).mpr
      simpa using h2
    rw [hx]
    cases markList f m tail <;> rfl

theorem applyMarkIn_hasName (f m g : String) (x : Node) :
    (applyMarkIn f m x).hasName g = x.hasName g := by
  cases x with
  | text s => rfl
  | elem a ch => rw [applyMarkIn_elem]; rfl

theorem applyMarkIn_hasClass (f m c : String) (x : Node) :
    (applyMarkIn f m x).hasClass c = x.hasClass c := by
  cases x with
  | text s => rfl
  | elem a ch => rw [applyMarkIn_elem]; rfl

theorem applyMarkIn_addClass (f m c : String) (x : Node) :
    applyMarkIn f m (x.addClass c) = (applyMarkIn f m x).addClass c := by
  cases x with
  | text s => rfl
  | elem a ch => simp [Node.addClass, applyMarkIn_elem]

theorem applyMark_of_not_found (f m : String) (l : List Node) (h : findList f l = none) :
    applyMark f m l = l := by
  unfold applyMark
  rw [(markList_eq_none f m l).mpr h]
  rfl

theorem applyMark_wf (f m : String) (l : List Node) (hwf : errorsUnnamedList l = true) :
    errorsUnnamedList (applyMark f m l) = true := by
  unfold applyMark
  cases h : markList f m l with
  | none => simpa using hwf
  | some l2 => simpa using markList_wf f m l l2 hwf h

theorem applyMarkIn_findNode_isSome (f g m : String) (hfg : f ≠ g) (x : Node)
    (hwf : errorsUnnamedNode x = true) :
    (findNode g (applyMarkIn f m x)).isSome = (findNode g x).isSome := by
  unfold applyMarkIn
  cases h : markNode f m x with
  | none => rfl
  | some x2 =>
    have := markNode_fieldView g f m hfg x x2 hwf h
    simp only [Option.getD_some]
    have h2 := congrArg Option.isSome this
    simpa using h2

theorem removeNextError_cons_nonerror (a : Attrs) (ch tail : List Node)
    (h : a.classes.contains "invalid-feedback" = false) :
    removeNextError (.elem a ch :: tail) = .elem a ch :: tail := by
  simp only [removeNextError, h]
  rfl

/-- Removing the error element at the head of a list and processing a field
further down can be done in either order. -/
theorem removeNextError_applyMark (g m : String) :
    ∀ l : List Node, errorsUnnamedList l = true →
      removeNextError (applyMark g m l) = applyMark g m (removeNextError l)
  | [], _ => rfl
  | .text s :: rest, hwf => by
    simp only [errorsUnnamedList, Bool.and_eq_true] at hwf
    have ih := removeNextError_applyMark g m rest hwf.2
    have h1 : ∀ t : List Node, applyMark g m (.text s :: t) = .text s :: applyMark g m t := by
      intro t
      rw [applyMark_cons]
      simp [Node.hasName, findNode]
    rw [h1]
    simp only [removeNextError]
    rw [h1, ih]
  | .elem a ch :: rest, hwf => by
    simp only [errorsUnnamedList, Bool.and_eq_true] at hwf
    by_cases he : a.classes.contains "invalid-feedback" = true
    · obtain ⟨hn, hfind⟩ := error_not_found g a ch hwf.1 he
      have h1 : applyMark g m (.elem a ch :: rest) = .elem a ch :: applyMark g m rest := by
        rw [applyMark_cons]
        simp [hn, hfind]
      have he2 : "invalid-feedback" ∈ a.classes := by simpa using he
      rw [h1]
      simp [removeNextError, he2]
    · have he2 : a.classes.contains "invalid-feedback" = false := by simpa using he
      rw [removeNextError_cons_nonerror a ch rest he2, applyMark_cons]
      split_ifs with h1 h2
      · have : (classListAdd "is-invalid" a.classes).contains "invalid-feedback" = false := by
          rw [classListAdd_contains _ _ _ (by decide)]
          exact he2
        exact removeNextError_cons_nonerror _ ch _ this
      · rw [applyMarkIn_elem]
        exact removeNextError_cons_nonerror a _ rest he2
      · exact removeNextError_cons_nonerror a ch _ he2


/-- Two different fields commute when the first node carries the name of one
of them. -/
theorem applyMark_comm_named (f g mf mg : String) (hfg : f ≠ g) (x : Node) (tail : List Node)
    (hwf : errorsUnnamedList tail = true) (hf : x.hasName f = true) :
    applyMark g mg (applyMark f mf (x :: tail)) = applyMark f mf (applyMark g mg (x :: tail)) := by
  have hg : x.hasName g = false := hasName_ne g f hfg x hf
  have hg2 : (x.addClass "is-invalid").hasName g = false := by rw [addClass_hasName, hg]
  have hL : applyMark f mf (x :: tail)
      = x.addClass "is-invalid" :: errorDiv mf :: removeNextError tail := by
    rw [applyMark_cons, if_pos hf]
  have hdiv : ∀ t : List Node, applyMark g mg (errorDiv mf :: t) = errorDiv mf :: applyMark g mg t := by
    intro t
    rw [applyMark_cons]
    simp [(errorDiv_not_found g mf).1, (errorDiv_not_found g mf).2]
  rw [hL]
  by_cases hin : (findNode g x).isSome = true
  · have hin2 : (findNode g (x.addClass "is-invalid")).isSome = true := by
      rw [addClass_findNode]
      exact hin
    have hR : applyMark g mg (x :: tail) = applyMarkIn g mg x :: tail := by
      rw [applyMark_cons]
      simp [hg, hin]
    have hL2 : applyMark g mg (x.addClass "is-invalid" :: errorDiv mf :: removeNextError tail)
        = applyMarkIn g mg (x.addClass "is-invalid") :: errorDiv mf :: removeNextError tail := by
      rw [applyMark_cons]
      simp [hg2, hin2]
    rw [hR, hL2, applyMark_cons f, applyMarkIn_hasName, if_pos hf, applyMarkIn_addClass]
  · have hin2 : ¬ (findNode g (x.addClass "is-invalid")).isSome = true := by
      rw [addClass_findNode]
      exact hin
    have hR : applyMark g mg (x :: tail) = x :: applyMark g mg tail := by
      rw [applyMark_cons]
      simp only [hg, Bool.false_eq_true, if_false, if_neg hin]
    have hL2 : applyMark g mg (x.addClass "is-invalid" :: errorDiv mf :: removeNextError tail)
        = x.addClass "is-invalid" :: errorDiv mf :: applyMark g mg (removeNextError tail) := by
      rw [applyMark_cons]
      simp only [hg2, Bool.false_eq_true, if_false, if_neg hin2, hdiv]
    rw [hR, hL2, applyMark_cons f, if_pos hf, removeNextError_applyMark g mg tail hwf]

mutual
/-- Two different fields can be processed in either order below a node whose
error elements are free of names. -/
theorem applyMarkIn_comm (f g mf mg : String) (hfg : f ≠ g) :
    ∀ x : Node, errorsUnnamedNode x = true →
      applyMarkIn g mg (applyMarkIn f mf x) = applyMarkIn f mf (applyMarkIn g mg x)
  | .text _, _ => rfl
  | .elem a ch, hwf => by
    simp only [applyMarkIn_elem]
    by_cases hnamed : namedInList ch = true
    · have hch := (nonerror_of_named a ch hwf (Or.inr hnamed)).2
      rw [applyMark_comm f g mf mg hfg ch hch]
    · have hnone : ∀ k, findList k ch = none := fun k =>
        findList_eq_none_of_unnamed k ch (by simpa using hnamed)
      rw [applyMark_of_not_found f mf ch (hnone f), applyMark_of_not_found g mg ch (hnone g),
        applyMark_of_not_found f mf ch (hnone f)]
/-- Two different fields can be processed in either order on a list of
siblings whose error elements are free of names. -/
theorem applyMark_comm (f g mf mg : String) (hfg : f ≠ g) :
    ∀ l : List Node, errorsUnnamedList l = true →
      applyMark g mg (applyMark f mf l) = applyMark f mf (applyMark g mg l)
  | [], _ => rfl
  | x :: tail, hwf => by
    have ihn := applyMarkIn_comm f g mf mg hfg x
    have ihl := applyMark_comm f g mf mg hfg tail
    simp only [errorsUnnamedList, Bool.and_eq_true] at hwf
    by_cases hf : x.hasName f = true
    · exact applyMark_comm_named f g mf mg hfg x tail hwf.2 hf
    by_cases hg : x.hasName g = true
    · exact (applyMark_comm_named g f mg mf (Ne.symm hfg) x tail hwf.2 hg).symm
    have hf2 : x.hasName f = false := by simpa using hf
    have hg2 : x.hasName g = false := by simpa using hg
    have hinF := applyMarkIn_findNode_isSome g f mg (Ne.symm hfg) x hwf.1
    have hinG := applyMarkIn_findNode_isSome f g mf hfg x hwf.1
    rw [applyMark_cons f, applyMark_cons g (x := x)]
    simp only [hf2, hg2, Bool.false_eq_true, if_false]
    by_cases inF : (findNode f x).isSome = true <;> by_cases inG : (findNode g x).isSome = true
    · rw [if_pos inF, if_pos inG, applyMark_cons g, applyMark_cons f]
      simp only [applyMarkIn_hasName, hf2, hg2, Bool.false_eq_true, if_false, hinF, hinG, inF, inG,
        if_true]
      rw [ihn hwf.1]
    · rw [if_pos inF, if_neg inG, applyMark_cons g, applyMark_cons f]
      simp only [applyMarkIn_hasName, hf2, hg2, Bool.false_eq_true, if_false, hinG, inF, inG,
        if_true]
    · rw [if_neg inF, if_pos inG, applyMark_cons g, applyMark_cons f]
      simp only [applyMarkIn_hasName, hf2, hg2, Bool.false_eq_true, if_false, hinF, inF, inG,
        if_true]
    · rw [if_neg inF, if_neg inG, applyMark_cons g, applyMark_cons f]
      simp only [hf2, hg2, Bool.false_eq_true, if_false, inF, inG]
      rw [ihl hwf.2]
end

/-- Error elements must be free of names for the order not to matter: when the
input `email` carries the class `invalid-feedback` and follows the input
`user`, processing `user` first removes `email` before its error is shown. -/
theorem order_matters_for_named_error_elements :
    displayFieldErrors (.obj [("user", .str "Taken"), ("email", .str "Invalid address")])
      inputStyledAsError
      = [.elem ⟨some "user", ["is-invalid"], "", ""⟩ [], errorDiv "Taken"] ∧
    displayFieldErrors (.obj [("email", .str "Invalid address"), ("user", .str "Taken")])
      inputStyledAsError
      = [.elem ⟨some "user", ["is-invalid"], "", ""⟩ [], errorDiv "Taken",
         errorDiv "Invalid address"] :=
  ⟨rfl, rfl⟩

end Blogsite
